import Mathlib

/-!
# Verification of the performer-ph sequencer core

Shallow embedding of the performer-ph step sequencer, checked against the
natural-language specification.  Pure functions of the source are translated
to Lean functions; stateful subsystems (clock, MIDI parser) become explicit
state-passing; machine integers become `Nat`/`Int` with explicit bounds.

The repository ships the unit tests of the core (`src/tests/unit/...`) and
implementation snippets of the mebitek fork (`mebitek_snippets/...`); the
implementation files of Project, NoteSequence, Rhythm, Clock and MidiParser
are not part of the source tree, so those parts are modelled from the spec
(each such definition is marked `Modelled from the spec:`) and settled
against the behaviour pinned by the unit tests.
-/

namespace Performer

/-! ## Byte-stream primitives (spec §4.8)

Modelled from the spec: `VersionedSerializedWriter` / `VersionedSerializedReader`
(`core/io/`) are not in the source tree.  The spec fixes the encoding rules:
"all multi-byte fields are little-endian", "Strings are length-prefixed,
fixed maximum length 16".  A stream is a `List Nat` of bytes (each < 256);
a reader consumes a prefix and returns the value and the rest, or `none`. -/

def write8 (v : Nat) : List Nat := [v % 256]

def read8 : List Nat → Option (Nat × List Nat)
  | [] => none
  | b :: rest => some (b, rest)

/-- 16-bit little-endian write. -/
def write16 (v : Nat) : List Nat := [v % 256, v / 256 % 256]

def read16 : List Nat → Option (Nat × List Nat)
  | b0 :: b1 :: rest => some (b0 + 256 * b1, rest)
  | _ => none

/-- 32-bit little-endian write. -/
def write32 (v : Nat) : List Nat :=
  [v % 256, v / 256 % 256, v / 65536 % 256, v / 16777216 % 256]

def read32 : List Nat → Option (Nat × List Nat)
  | b0 :: b1 :: b2 :: b3 :: rest =>
      some (b0 + 256 * b1 + 65536 * b2 + 16777216 * b3, rest)
  | _ => none

/-- Read exactly `n` raw bytes. -/
def readBytes : Nat → List Nat → Option (List Nat × List Nat)
  | 0, l => some ([], l)
  | _ + 1, [] => none
  | n + 1, b :: l => (readBytes n l).map (fun p => (b :: p.1, p.2))

/-- Run a reader exactly `n` times, collecting the results. -/
def readCount (r : List Nat → Option (α × List Nat)) :
    Nat → List Nat → Option (List α × List Nat)
  | 0, l => some ([], l)
  | n + 1, l =>
    match r l with
    | none => none
    | some (x, l') =>
      match readCount r n l' with
      | none => none
      | some (xs, l'') => some (x :: xs, l'')

/-- Length-prefixed name, fixed maximum length 16 (spec §4.8). -/
def writeName (s : List Nat) : List Nat := write8 s.length ++ s

def readName (l : List Nat) : Option (List Nat × List Nat) :=
  match read8 l with
  | none => none
  | some (n, l') => readBytes n l'

/-- Well-formed name: at most 16 characters, each a byte. -/
def NameWF (s : List Nat) : Prop := s.length ≤ 16 ∧ ∀ b ∈ s, b < 256

instance : DecidablePred NameWF := fun s => by unfold NameWF; infer_instance

theorem read8_write8 (v : Nat) (hv : v < 256) (rest : List Nat) :
    read8 (write8 v ++ rest) = some (v, rest) := by
  simp [read8, write8, Nat.mod_eq_of_lt hv]

theorem read16_write16 (v : Nat) (hv : v < 65536) (rest : List Nat) :
    read16 (write16 v ++ rest) = some (v, rest) := by
  simp only [write16, read16, List.cons_append, List.nil_append]
  congr 1
  congr 1
  omega

theorem read32_write32 (v : Nat) (hv : v < 4294967296) (rest : List Nat) :
    read32 (write32 v ++ rest) = some (v, rest) := by
  simp only [write32, read32, List.cons_append, List.nil_append]
  congr 1
  congr 1
  omega

theorem read32_write32_nil (v : Nat) (hv : v < 4294967296) :
    read32 (write32 v) = some (v, []) := by
  have := read32_write32 v hv []
  simpa using this

theorem readBytes_append (s rest : List Nat) :
    readBytes s.length (s ++ rest) = some (s, rest) := by
  induction s with
  | nil => simp [readBytes]
  | cons b l ih => simp [readBytes, ih]

theorem readName_writeName (s : List Nat) (h : NameWF s) (rest : List Nat) :
    readName (writeName s ++ rest) = some (s, rest) := by
  obtain ⟨h1, _⟩ := h
  have hlen : s.length < 256 := by omega
  unfold readName writeName
  rw [List.append_assoc, read8_write8 _ hlen]
  exact readBytes_append s rest

theorem readCount_append {α : Type} (r : List Nat → Option (α × List Nat))
    (w : α → List Nat) (P : α → Prop)
    (hrw : ∀ x, P x → ∀ rest, r (w x ++ rest) = some (x, rest))
    (xs : List α) (hxs : ∀ x ∈ xs, P x) (rest : List Nat) :
    readCount r xs.length ((xs.map w).flatten ++ rest) = some (xs, rest) := by
  induction xs with
  | nil => simp [readCount]
  | cons x l ih =>
    have hx : P x := hxs x (List.mem_cons_self x l)
    have hl : ∀ y ∈ l, P y := fun y hy => hxs y (List.mem_cons_of_mem x hy)
    simp only [List.map_cons, List.flatten_cons, List.length_cons, List.append_assoc]
    unfold readCount
    rw [hrw x hx]
    dsimp only
    rw [ih hl]

/-! ## NoteSequence step (spec §3)

Modelled from the spec: `apps/sequencer/model/NoteSequence.cpp` is not in the
source tree.  A step is a fixed-width packed record with the bit-fields of the
spec's table (gate 1, gateProbability 7, gateOffset 4, slide 1, retrigger 4,
retriggerProbability 7, length 4, lengthVariationRange 4,
lengthVariationProbability 7, note 7, noteVariationRange 5,
noteVariationProbability 7, condition 4) plus the fork's velocity field
(0..127, exercised by `TestNoteSequence.cpp`).  Signed fields are held as
their raw width-wide bit patterns.  "Bit-packed step records are emitted
verbatim" (spec §4.8): the writer emits the two packed 32-bit words
little-endian, followed by the velocity byte. -/

structure NoteStep where
  gate : Nat
  gateProbability : Nat
  gateOffset : Nat
  slide : Nat
  retrigger : Nat
  retriggerProbability : Nat
  length : Nat
  lengthVariationRange : Nat
  lengthVariationProbability : Nat
  note : Nat
  noteVariationRange : Nat
  noteVariationProbability : Nat
  condition : Nat
  velocity : Nat
  deriving DecidableEq, Repr

namespace NoteStep

/-- Every field fits its bit-field width. -/
def WF (s : NoteStep) : Prop :=
  s.gate < 2 ∧ s.gateProbability < 128 ∧ s.gateOffset < 16 ∧ s.slide < 2 ∧
  s.retrigger < 16 ∧ s.retriggerProbability < 128 ∧ s.length < 16 ∧
  s.lengthVariationRange < 16 ∧ s.lengthVariationProbability < 128 ∧
  s.note < 128 ∧ s.noteVariationRange < 32 ∧
  s.noteVariationProbability < 128 ∧ s.condition < 16 ∧ s.velocity < 128

instance : DecidablePred WF := fun s => by unfold WF; infer_instance

/-- First packed 32-bit word:
gate | gateProbability | gateOffset | slide | retrigger |
retriggerProbability | length | lengthVariationRange. -/
def data0 (s : NoteStep) : Nat :=
  s.gate + 2 * s.gateProbability + 256 * s.gateOffset + 4096 * s.slide +
  8192 * s.retrigger + 131072 * s.retriggerProbability +
  16777216 * s.length + 268435456 * s.lengthVariationRange

/-- Second packed 32-bit word:
lengthVariationProbability | note | noteVariationRange |
noteVariationProbability | condition. -/
def data1 (s : NoteStep) : Nat :=
  s.lengthVariationProbability + 128 * s.note + 16384 * s.noteVariationRange +
  524288 * s.noteVariationProbability + 67108864 * s.condition

/-- Unpack the two words (and velocity byte) back into a step. -/
def unpack (d0 d1 v : Nat) : NoteStep where
  gate := d0 % 2
  gateProbability := d0 / 2 % 128
  gateOffset := d0 / 256 % 16
  slide := d0 / 4096 % 2
  retrigger := d0 / 8192 % 16
  retriggerProbability := d0 / 131072 % 128
  length := d0 / 16777216 % 16
  lengthVariationRange := d0 / 268435456 % 16
  lengthVariationProbability := d1 % 128
  note := d1 / 128 % 128
  noteVariationRange := d1 / 16384 % 32
  noteVariationProbability := d1 / 524288 % 128
  condition := d1 / 67108864 % 16
  velocity := v % 128

def write (s : NoteStep) : List Nat :=
  write32 s.data0 ++ write32 s.data1 ++ write8 s.velocity

def read (l : List Nat) : Option (NoteStep × List Nat) :=
  match read32 l with
  | none => none
  | some (d0, l) =>
    match read32 l with
    | none => none
    | some (d1, l) =>
      match read8 l with
      | none => none
      | some (v, l) => some (unpack d0 d1 v, l)

theorem noteData0_lt (s : NoteStep) (h : s.WF) : s.data0 < 4294967296 := by
  obtain ⟨h1, h2, h3, h4, h5, h6, h7, h8, _⟩ := h
  unfold data0
  omega

theorem noteData1_lt (s : NoteStep) (h : s.WF) : s.data1 < 4294967296 := by
  obtain ⟨_, _, _, _, _, _, _, _, h9, h10, h11, h12, h13, _⟩ := h
  unfold data1
  omega

theorem noteUnpack_pack (s : NoteStep) (h : s.WF) :
    unpack s.data0 s.data1 s.velocity = s := by
  obtain ⟨h1, h2, h3, h4, h5, h6, h7, h8, h9, h10, h11, h12, h13, h14⟩ := h
  unfold unpack data0 data1
  obtain ⟨g, gp, go, sl, rt, rp, ln, lvr, lvp, nt, nvr, nvp, cd, vl⟩ := s
  simp only [NoteStep.mk.injEq]
  simp only at h1 h2 h3 h4 h5 h6 h7 h8 h9 h10 h11 h12 h13 h14
  refine ⟨?_, ?_, ?_, ?_, ?_, ?_, ?_, ?_, ?_, ?_, ?_, ?_, ?_, ?_⟩ <;> omega

theorem noteStep_read_write (s : NoteStep) (h : s.WF) (rest : List Nat) :
    read (write s ++ rest) = some (s, rest) := by
  have hv : s.velocity < 256 := by
    have := h; unfold WF at this; omega
  unfold read write
  rw [List.append_assoc, List.append_assoc, read32_write32 _ (noteData0_lt s h)]
  dsimp only
  rw [read32_write32 _ (noteData1_lt s h)]
  dsimp only
  rw [read8_write8 _ hv]
  dsimp only
  rw [noteUnpack_pack s h]

end NoteStep

/-! ## Project sub-components (spec §3, §4.8)

Modelled from the spec: the model sources (`ClockSetup.cpp`, `Routing.cpp`,
`MidiOutput.cpp`, `UserScale.cpp`, `Song.cpp`, `PlayState.cpp`) are not in
the source tree.  Each component carries the fields the spec names for it and
serializes them in order, multi-byte fields little-endian. -/

/-- Clock setup: mode selector, output divisor (1..192, default 24), output
pulse width in microseconds and output swing (spec §4.4, §6). -/
structure ClockSetup where
  mode : Nat
  outputDivisor : Nat
  outputPulseWidth : Nat
  outputSwing : Nat
  deriving DecidableEq, Repr

namespace ClockSetup

def WF (c : ClockSetup) : Prop :=
  c.mode < 256 ∧ c.outputDivisor < 65536 ∧ c.outputPulseWidth < 65536 ∧
  c.outputSwing < 256

instance : DecidablePred WF := fun c => by unfold WF; infer_instance

def write (c : ClockSetup) : List Nat :=
  write8 c.mode ++ write16 c.outputDivisor ++ write16 c.outputPulseWidth ++
  write8 c.outputSwing

def read (l : List Nat) : Option (ClockSetup × List Nat) :=
  match read8 l with
  | none => none
  | some (m, l) =>
    match read16 l with
    | none => none
    | some (d, l) =>
      match read16 l with
      | none => none
      | some (p, l) =>
        match read8 l with
        | none => none
        | some (s, l) => some (⟨m, d, p, s⟩, l)

theorem clockSetup_read_write (c : ClockSetup) (h : c.WF) (rest : List Nat) :
    read (write c ++ rest) = some (c, rest) := by
  obtain ⟨h1, h2, h3, h4⟩ := h
  unfold read write
  rw [List.append_assoc, List.append_assoc, List.append_assoc,
    read8_write8 _ h1]
  dsimp only
  rw [read16_write16 _ h2]
  dsimp only
  rw [read16_write16 _ h3]
  dsimp only
  rw [read8_write8 _ h4]

end ClockSetup

/-- One routing table entry: a target parameter and its source (spec §4.5). -/
structure Route where
  target : Nat
  source : Nat
  deriving DecidableEq, Repr

namespace Route

def WF (r : Route) : Prop := r.target < 256 ∧ r.source < 256

instance : DecidablePred WF := fun r => by unfold WF; infer_instance

def write (r : Route) : List Nat := write8 r.target ++ write8 r.source

def read (l : List Nat) : Option (Route × List Nat) :=
  match read8 l with
  | none => none
  | some (t, l) =>
    match read8 l with
    | none => none
    | some (s, l) => some (⟨t, s⟩, l)

theorem route_read_write (r : Route) (h : r.WF) (rest : List Nat) :
    read (write r ++ rest) = some (r, rest) := by
  obtain ⟨h1, h2⟩ := h
  unfold read write
  rw [List.append_assoc, read8_write8 _ h1]
  dsimp only
  rw [read8_write8 _ h2]

end Route

/-- One MIDI-output map entry: event kind, output port and channel. -/
structure MidiOutputEntry where
  event : Nat
  port : Nat
  channel : Nat
  deriving DecidableEq, Repr

namespace MidiOutputEntry

def WF (m : MidiOutputEntry) : Prop :=
  m.event < 256 ∧ m.port < 256 ∧ m.channel < 256

instance : DecidablePred WF := fun m => by unfold WF; infer_instance

def write (m : MidiOutputEntry) : List Nat :=
  write8 m.event ++ write8 m.port ++ write8 m.channel

def read (l : List Nat) : Option (MidiOutputEntry × List Nat) :=
  match read8 l with
  | none => none
  | some (e, l) =>
    match read8 l with
    | none => none
    | some (p, l) =>
      match read8 l with
      | none => none
      | some (c, l) => some (⟨e, p, c⟩, l)

theorem midiOutputEntry_read_write (m : MidiOutputEntry) (h : m.WF) (rest : List Nat) :
    read (write m ++ rest) = some (m, rest) := by
  obtain ⟨h1, h2, h3⟩ := h
  unfold read write
  rw [List.append_assoc, List.append_assoc, read8_write8 _ h1]
  dsimp only
  rw [read8_write8 _ h2]
  dsimp only
  rw [read8_write8 _ h3]

end MidiOutputEntry

/-- User scale: name, size and the scale items (spec §3: U = 4 user scales,
default size 12). -/
structure UserScale where
  name : List Nat
  size : Nat
  items : List Nat
  deriving DecidableEq, Repr

namespace UserScale

def WF (u : UserScale) : Prop :=
  NameWF u.name ∧ u.size < 256 ∧ u.items.length < 256 ∧ ∀ b ∈ u.items, b < 256

instance : DecidablePred WF := fun u => by unfold WF; infer_instance

def write (u : UserScale) : List Nat :=
  writeName u.name ++ write8 u.size ++ write8 u.items.length ++ u.items

def read (l : List Nat) : Option (UserScale × List Nat) :=
  match readName l with
  | none => none
  | some (n, l) =>
    match read8 l with
    | none => none
    | some (s, l) =>
      match read8 l with
      | none => none
      | some (k, l) =>
        match readBytes k l with
        | none => none
        | some (items, l) => some (⟨n, s, items⟩, l)

theorem userScale_read_write (u : UserScale) (h : u.WF) (rest : List Nat) :
    read (write u ++ rest) = some (u, rest) := by
  obtain ⟨h1, h2, h3, _⟩ := h
  unfold read write
  rw [List.append_assoc, List.append_assoc, List.append_assoc,
    readName_writeName _ h1]
  dsimp only
  rw [read8_write8 _ h2]
  dsimp only
  rw [read8_write8 _ h3]
  dsimp only
  rw [readBytes_append]

end UserScale

/-- One song slot: the pattern selected for each of the T tracks plus a
repetition count (spec §4.7). -/
structure SongSlot where
  patterns : List Nat
  repeats : Nat
  deriving DecidableEq, Repr

namespace SongSlot

def WF (s : SongSlot) : Prop :=
  s.patterns.length ≤ 16 ∧ (∀ b ∈ s.patterns, b < 256) ∧ s.repeats < 256

instance : DecidablePred WF := fun s => by unfold WF; infer_instance

def write (s : SongSlot) : List Nat := writeName s.patterns ++ write8 s.repeats

def read (l : List Nat) : Option (SongSlot × List Nat) :=
  match readName l with
  | none => none
  | some (p, l) =>
    match read8 l with
    | none => none
    | some (r, l) => some (⟨p, r⟩, l)

theorem songSlot_read_write (s : SongSlot) (h : s.WF) (rest : List Nat) :
    read (write s ++ rest) = some (s, rest) := by
  obtain ⟨h1, h2, h3⟩ := h
  unfold read write
  rw [List.append_assoc, readName_writeName _ ⟨h1, h2⟩]
  dsimp only
  rw [read8_write8 _ h3]

end SongSlot

/-- Song: a name and a linear chain of slots (spec §4.7). -/
structure Song where
  name : List Nat
  slots : List SongSlot
  deriving DecidableEq, Repr

namespace Song

def WF (s : Song) : Prop :=
  NameWF s.name ∧ s.slots.length < 256 ∧ ∀ x ∈ s.slots, x.WF

instance : DecidablePred WF := fun s => by unfold WF; infer_instance

def write (s : Song) : List Nat :=
  writeName s.name ++ write8 s.slots.length ++
  (s.slots.map SongSlot.write).flatten

def read (l : List Nat) : Option (Song × List Nat) :=
  match readName l with
  | none => none
  | some (n, l) =>
    match read8 l with
    | none => none
    | some (k, l) =>
      match readCount SongSlot.read k l with
      | none => none
      | some (slots, l) => some (⟨n, slots⟩, l)

theorem song_read_write (s : Song) (h : s.WF) (rest : List Nat) :
    read (write s ++ rest) = some (s, rest) := by
  obtain ⟨h1, h2, h3⟩ := h
  unfold read write
  rw [List.append_assoc, List.append_assoc, readName_writeName _ h1]
  dsimp only
  rw [read8_write8 _ h2]
  dsimp only
  rw [readCount_append SongSlot.read SongSlot.write SongSlot.WF
    (fun x hx r => SongSlot.songSlot_read_write x hx r) s.slots h3]

end Song

/-- Play state: transport running flag and fill amount (spec §4.6). -/
structure PlayState where
  running : Nat
  fillAmount : Nat
  deriving DecidableEq, Repr

namespace PlayState

def WF (p : PlayState) : Prop := p.running < 256 ∧ p.fillAmount < 256

instance : DecidablePred WF := fun p => by unfold WF; infer_instance

def write (p : PlayState) : List Nat := write8 p.running ++ write8 p.fillAmount

def read (l : List Nat) : Option (PlayState × List Nat) :=
  match read8 l with
  | none => none
  | some (r, l) =>
    match read8 l with
    | none => none
    | some (f, l) => some (⟨r, f⟩, l)

theorem playState_read_write (p : PlayState) (h : p.WF) (rest : List Nat) :
    read (write p ++ rest) = some (p, rest) := by
  obtain ⟨h1, h2⟩ := h
  unfold read write
  rw [List.append_assoc, read8_write8 _ h1]
  dsimp only
  rw [read8_write8 _ h2]

end PlayState

/-! ## Logic sequence step
(`mebitek_snippets/logic_track/LogicSequence_operators.h`)

This part is embedded from the source file.  The step packs its data into two
32-bit words (`_data0`, `_data1`) whose bit-field layout is the one in the
source: data0 = gate:1, gateProbability:7, gateOffset:4, gateLogic:3,
retrigger:4, retriggerProbability:7, length:4, lengthVariationRange:2;
data1 = note:7, noteLogic:3, noteVariationRange:5, noteVariationProbability:7,
condition:4, slide:1, bypassScale:1, repeatMode:2,
lengthVariationProbability:2.  Fields are held unpacked as raw `Nat` bit
patterns. -/

/-- `clamp` of `ModelUtils.h`, C++ semantics on `Int`. -/
def clampI (v lo hi : Int) : Int := if v < lo then lo else if v > hi then hi else v

structure LogicStep where
  gate : Nat
  gateProbability : Nat
  gateOffset : Nat
  gateLogic : Nat
  retrigger : Nat
  retriggerProbability : Nat
  length : Nat
  lengthVariationRange : Nat
  note : Nat
  noteLogic : Nat
  noteVariationRange : Nat
  noteVariationProbability : Nat
  condition : Nat
  slide : Nat
  bypassScale : Nat
  repeatMode : Nat
  lengthVariationProbability : Nat
  deriving DecidableEq, Repr

namespace LogicStep

def WF (s : LogicStep) : Prop :=
  s.gate < 2 ∧ s.gateProbability < 128 ∧ s.gateOffset < 16 ∧ s.gateLogic < 8 ∧
  s.retrigger < 16 ∧ s.retriggerProbability < 128 ∧ s.length < 16 ∧
  s.lengthVariationRange < 4 ∧ s.note < 128 ∧ s.noteLogic < 8 ∧
  s.noteVariationRange < 32 ∧ s.noteVariationProbability < 128 ∧
  s.condition < 16 ∧ s.slide < 2 ∧ s.bypassScale < 2 ∧ s.repeatMode < 4 ∧
  s.lengthVariationProbability < 4

instance : DecidablePred WF := fun s => by unfold WF; infer_instance

/-- `_data0` of `LogicSequence::Step`. -/
def data0 (s : LogicStep) : Nat :=
  s.gate + 2 * s.gateProbability + 256 * s.gateOffset + 4096 * s.gateLogic +
  32768 * s.retrigger + 524288 * s.retriggerProbability +
  67108864 * s.length + 1073741824 * s.lengthVariationRange

/-- `_data1` of `LogicSequence::Step`. -/
def data1 (s : LogicStep) : Nat :=
  s.note + 128 * s.noteLogic + 1024 * s.noteVariationRange +
  32768 * s.noteVariationProbability + 4194304 * s.condition +
  67108864 * s.slide + 134217728 * s.bypassScale +
  268435456 * s.repeatMode + 1073741824 * s.lengthVariationProbability

def unpack (d0 d1 : Nat) : LogicStep where
  gate := d0 % 2
  gateProbability := d0 / 2 % 128
  gateOffset := d0 / 256 % 16
  gateLogic := d0 / 4096 % 8
  retrigger := d0 / 32768 % 16
  retriggerProbability := d0 / 524288 % 128
  length := d0 / 67108864 % 16
  lengthVariationRange := d0 / 1073741824 % 4
  note := d1 % 128
  noteLogic := d1 / 128 % 8
  noteVariationRange := d1 / 1024 % 32
  noteVariationProbability := d1 / 32768 % 128
  condition := d1 / 4194304 % 16
  slide := d1 / 67108864 % 2
  bypassScale := d1 / 134217728 % 2
  repeatMode := d1 / 268435456 % 4
  lengthVariationProbability := d1 / 1073741824 % 4

/-- `LogicSequence::Step::evaluateGateLogic`: combine the input gates of
tracks A and B according to the step's gate logic operator
(PASS = 0, INVERT = 1, AND = 2, OR = 3, XOR = 4, NAND = 5, NOR = 6;
the switch default returns input A). -/
def evaluateGateLogic (s : LogicStep) (inputA inputB : Bool) : Bool :=
  match s.gateLogic with
  | 0 => inputA
  | 1 => !inputA
  | 2 => inputA && inputB
  | 3 => inputA || inputB
  | 4 => inputA != inputB
  | 5 => !(inputA && inputB)
  | 6 => !(inputA || inputB)
  | _ => inputA

/-- `LogicSequence::Step::evaluateNoteLogic`: process the input notes of
tracks A and B according to the step's note logic operator
(PASS = 0, TRANSPOSE_A = 1, TRANSPOSE_B = 2, COMBINE = 3, FILTER_HIGH = 4,
FILTER_LOW = 5, FILTER_RANGE = 6, MASK = 7).  `Int.tdiv` is the C++
truncating integer division. -/
def evaluateNoteLogic (s : LogicStep)
    (noteA noteB transposeA transposeB : Int) : Int :=
  match s.noteLogic with
  | 0 => noteA
  | 1 => clampI (noteA + transposeA) 0 127
  | 2 => clampI (noteB + transposeB) 0 127
  | 3 => Int.tdiv (noteA + noteB) 2
  | 4 => if noteA > noteB then noteA else 0
  | 5 => if noteA < noteB then noteA else 0
  | 6 =>
    let low := min noteA noteB
    let high := max noteA noteB
    if (s.note : Int) ≥ low ∧ (s.note : Int) ≤ high then (s.note : Int) else 0
  | 7 => if noteB > 0 then 0 else noteA
  | _ => noteA

def write (s : LogicStep) : List Nat := write32 s.data0 ++ write32 s.data1

def read (l : List Nat) : Option (LogicStep × List Nat) :=
  match read32 l with
  | none => none
  | some (d0, l) =>
    match read32 l with
    | none => none
    | some (d1, l) => some (unpack d0 d1, l)

theorem logicData0_lt (s : LogicStep) (h : s.WF) : s.data0 < 4294967296 := by
  obtain ⟨h1, h2, h3, h4, h5, h6, h7, h8, _⟩ := h
  unfold data0
  omega

theorem logicData1_lt (s : LogicStep) (h : s.WF) : s.data1 < 4294967296 := by
  obtain ⟨_, _, _, _, _, _, _, _, h9, h10, h11, h12, h13, h14, h15, h16, h17⟩ := h
  unfold data1
  omega

theorem logicUnpack_pack (s : LogicStep) (h : s.WF) : unpack s.data0 s.data1 = s := by
  obtain ⟨h1, h2, h3, h4, h5, h6, h7, h8, h9, h10, h11, h12, h13, h14, h15, h16, h17⟩ := h
  unfold unpack data0 data1
  obtain ⟨f1, f2, f3, f4, f5, f6, f7, f8, f9, f10, f11, f12, f13, f14, f15, f16, f17⟩ := s
  simp only [LogicStep.mk.injEq]
  simp only at h1 h2 h3 h4 h5 h6 h7 h8 h9 h10 h11 h12 h13 h14 h15 h16 h17
  refine ⟨?_, ?_, ?_, ?_, ?_, ?_, ?_, ?_, ?_, ?_, ?_, ?_, ?_, ?_, ?_, ?_, ?_⟩ <;> omega

theorem logicStep_read_write (s : LogicStep) (h : s.WF) (rest : List Nat) :
    read (write s ++ rest) = some (s, rest) := by
  unfold read write
  rw [List.append_assoc, read32_write32 _ (logicData0_lt s h)]
  dsimp only
  rw [read32_write32 _ (logicData1_lt s h)]
  dsimp only
  rw [logicUnpack_pack s h]

end LogicStep

/-! ## Track variants (spec §3)

Modelled from the spec: the track model sources are not in the source tree.
A track is a tagged variant over {Note, Curve, MidiCv, Stochastic, Logic,
Arp}; serialization writes the variant tag byte and then the
variant-specific body (spec §4.8). -/

/-- One note sequence: clock divisor, first/last step bounds and the step
array (spec §3). -/
structure NoteSeqData where
  divisor : Nat
  firstStep : Nat
  lastStep : Nat
  steps : List NoteStep
  deriving DecidableEq, Repr

namespace NoteSeqData

def WF (s : NoteSeqData) : Prop :=
  s.divisor < 65536 ∧ s.firstStep < 256 ∧ s.lastStep < 256 ∧
  s.steps.length < 256 ∧ ∀ x ∈ s.steps, x.WF

instance : DecidablePred WF := fun s => by unfold WF; infer_instance

def write (s : NoteSeqData) : List Nat :=
  write16 s.divisor ++ write8 s.firstStep ++ write8 s.lastStep ++
  write8 s.steps.length ++ (s.steps.map NoteStep.write).flatten

def read (l : List Nat) : Option (NoteSeqData × List Nat) :=
  match read16 l with
  | none => none
  | some (d, l) =>
    match read8 l with
    | none => none
    | some (f, l) =>
      match read8 l with
      | none => none
      | some (a, l) =>
        match read8 l with
        | none => none
        | some (k, l) =>
          match readCount NoteStep.read k l with
          | none => none
          | some (steps, l) => some (⟨d, f, a, steps⟩, l)

theorem noteSeqData_read_write (s : NoteSeqData) (h : s.WF) (rest : List Nat) :
    read (write s ++ rest) = some (s, rest) := by
  obtain ⟨h1, h2, h3, h4, h5⟩ := h
  unfold read write
  rw [List.append_assoc, List.append_assoc, List.append_assoc,
    List.append_assoc, read16_write16 _ h1]
  dsimp only
  rw [read8_write8 _ h2]
  dsimp only
  rw [read8_write8 _ h3]
  dsimp only
  rw [read8_write8 _ h4]
  dsimp only
  rw [readCount_append NoteStep.read NoteStep.write NoteStep.WF
    (fun x hx r => NoteStep.noteStep_read_write x hx r) s.steps h5]

end NoteSeqData

/-- One curve sequence: output range minimum/maximum and the per-step curve
shapes (spec §3, §4.5). -/
structure CurveSeqData where
  rangeMin : Nat
  rangeMax : Nat
  shapes : List Nat
  deriving DecidableEq, Repr

namespace CurveSeqData

def WF (s : CurveSeqData) : Prop :=
  s.rangeMin < 256 ∧ s.rangeMax < 256 ∧ s.shapes.length < 256 ∧
  ∀ b ∈ s.shapes, b < 256

instance : DecidablePred WF := fun s => by unfold WF; infer_instance

def write (s : CurveSeqData) : List Nat :=
  write8 s.rangeMin ++ write8 s.rangeMax ++ write8 s.shapes.length ++ s.shapes

def read (l : List Nat) : Option (CurveSeqData × List Nat) :=
  match read8 l with
  | none => none
  | some (mn, l) =>
    match read8 l with
    | none => none
    | some (mx, l) =>
      match read8 l with
      | none => none
      | some (k, l) =>
        match readBytes k l with
        | none => none
        | some (shapes, l) => some (⟨mn, mx, shapes⟩, l)

theorem curveSeqData_read_write (s : CurveSeqData) (h : s.WF) (rest : List Nat) :
    read (write s ++ rest) = some (s, rest) := by
  obtain ⟨h1, h2, h3, _⟩ := h
  unfold read write
  rw [List.append_assoc, List.append_assoc, List.append_assoc,
    read8_write8 _ h1]
  dsimp only
  rw [read8_write8 _ h2]
  dsimp only
  rw [read8_write8 _ h3]
  dsimp only
  rw [readBytes_append]

end CurveSeqData

/-- MidiCv track body: output port and channel (spec §3). -/
structure MidiCvData where
  port : Nat
  channel : Nat
  deriving DecidableEq, Repr

namespace MidiCvData

def WF (m : MidiCvData) : Prop := m.port < 256 ∧ m.channel < 256

instance : DecidablePred WF := fun m => by unfold WF; infer_instance

def write (m : MidiCvData) : List Nat := write8 m.port ++ write8 m.channel

def read (l : List Nat) : Option (MidiCvData × List Nat) :=
  match read8 l with
  | none => none
  | some (p, l) =>
    match read8 l with
    | none => none
    | some (c, l) => some (⟨p, c⟩, l)

theorem midiCvData_read_write (m : MidiCvData) (h : m.WF) (rest : List Nat) :
    read (write m ++ rest) = some (m, rest) := by
  obtain ⟨h1, h2⟩ := h
  unfold read write
  rw [List.append_assoc, read8_write8 _ h1]
  dsimp only
  rw [read8_write8 _ h2]

end MidiCvData

/-- Stochastic track body: rest probabilities at intervals 2/4/8/15
plus the step array (spec §3, §4.5). -/
structure StochasticData where
  restProb2 : Nat
  restProb4 : Nat
  restProb8 : Nat
  restProb15 : Nat
  steps : List NoteStep
  deriving DecidableEq, Repr

namespace StochasticData

def WF (s : StochasticData) : Prop :=
  s.restProb2 < 256 ∧ s.restProb4 < 256 ∧ s.restProb8 < 256 ∧
  s.restProb15 < 256 ∧ s.steps.length < 256 ∧ ∀ x ∈ s.steps, x.WF

instance : DecidablePred WF := fun s => by unfold WF; infer_instance

def write (s : StochasticData) : List Nat :=
  write8 s.restProb2 ++ write8 s.restProb4 ++ write8 s.restProb8 ++
  write8 s.restProb15 ++ write8 s.steps.length ++
  (s.steps.map NoteStep.write).flatten

def read (l : List Nat) : Option (StochasticData × List Nat) :=
  match read8 l with
  | none => none
  | some (p2, l) =>
    match read8 l with
    | none => none
    | some (p4, l) =>
      match read8 l with
      | none => none
      | some (p8, l) =>
        match read8 l with
        | none => none
        | some (p15, l) =>
          match read8 l with
          | none => none
          | some (k, l) =>
            match readCount NoteStep.read k l with
            | none => none
            | some (steps, l) => some (⟨p2, p4, p8, p15, steps⟩, l)

theorem stochasticData_read_write (s : StochasticData) (h : s.WF) (rest : List Nat) :
    read (write s ++ rest) = some (s, rest) := by
  obtain ⟨h1, h2, h3, h4, h5, h6⟩ := h
  unfold read write
  rw [List.append_assoc, List.append_assoc, List.append_assoc,
    List.append_assoc, List.append_assoc, read8_write8 _ h1]
  dsimp only
  rw [read8_write8 _ h2]
  dsimp only
  rw [read8_write8 _ h3]
  dsimp only
  rw [read8_write8 _ h4]
  dsimp only
  rw [read8_write8 _ h5]
  dsimp only
  rw [readCount_append NoteStep.read NoteStep.write NoteStep.WF
    (fun x hx r => NoteStep.noteStep_read_write x hx r) s.steps h6]

end StochasticData

/-- Logic track body: references to the input tracks A and B and the packed
logic step array (spec §3, §4.5). -/
structure LogicData where
  inputTrackA : Nat
  inputTrackB : Nat
  steps : List LogicStep
  deriving DecidableEq, Repr

namespace LogicData

def WF (s : LogicData) : Prop :=
  s.inputTrackA < 256 ∧ s.inputTrackB < 256 ∧ s.steps.length < 256 ∧
  ∀ x ∈ s.steps, x.WF

instance : DecidablePred WF := fun s => by unfold WF; infer_instance

def write (s : LogicData) : List Nat :=
  write8 s.inputTrackA ++ write8 s.inputTrackB ++ write8 s.steps.length ++
  (s.steps.map LogicStep.write).flatten

def read (l : List Nat) : Option (LogicData × List Nat) :=
  match read8 l with
  | none => none
  | some (a, l) =>
    match read8 l with
    | none => none
    | some (b, l) =>
      match read8 l with
      | none => none
      | some (k, l) =>
        match readCount LogicStep.read k l with
        | none => none
        | some (steps, l) => some (⟨a, b, steps⟩, l)

theorem logicData_read_write (s : LogicData) (h : s.WF) (rest : List Nat) :
    read (write s ++ rest) = some (s, rest) := by
  obtain ⟨h1, h2, h3, h4⟩ := h
  unfold read write
  rw [List.append_assoc, List.append_assoc, List.append_assoc,
    read8_write8 _ h1]
  dsimp only
  rw [read8_write8 _ h2]
  dsimp only
  rw [read8_write8 _ h3]
  dsimp only
  rw [readCount_append LogicStep.read LogicStep.write LogicStep.WF
    (fun x hx r => LogicStep.logicStep_read_write x hx r) s.steps h4]

end LogicData

/-- Arp track body: arpeggiator mode, octave range, divisor and the
MIDI-keyboard flag (spec §3, §4.5). -/
structure ArpData where
  mode : Nat
  octaveRange : Nat
  divisor : Nat
  midiKeyboard : Nat
  deriving DecidableEq, Repr

namespace ArpData

def WF (a : ArpData) : Prop :=
  a.mode < 256 ∧ a.octaveRange < 256 ∧ a.divisor < 65536 ∧ a.midiKeyboard < 256

instance : DecidablePred WF := fun a => by unfold WF; infer_instance

def write (a : ArpData) : List Nat :=
  write8 a.mode ++ write8 a.octaveRange ++ write16 a.divisor ++
  write8 a.midiKeyboard

def read (l : List Nat) : Option (ArpData × List Nat) :=
  match read8 l with
  | none => none
  | some (m, l) =>
    match read8 l with
    | none => none
    | some (o, l) =>
      match read16 l with
      | none => none
      | some (d, l) =>
        match read8 l with
        | none => none
        | some (k, l) => some (⟨m, o, d, k⟩, l)

theorem arpData_read_write (a : ArpData) (h : a.WF) (rest : List Nat) :
    read (write a ++ rest) = some (a, rest) := by
  obtain ⟨h1, h2, h3, h4⟩ := h
  unfold read write
  rw [List.append_assoc, List.append_assoc, List.append_assoc,
    read8_write8 _ h1]
  dsimp only
  rw [read8_write8 _ h2]
  dsimp only
  rw [read16_write16 _ h3]
  dsimp only
  rw [read8_write8 _ h4]

end ArpData

/-- Track body: tagged variant over the six track flavors (spec §3, §9). -/
inductive TrackBody where
  | note : List NoteSeqData → TrackBody
  | curve : List CurveSeqData → TrackBody
  | midiCv : MidiCvData → TrackBody
  | stochastic : StochasticData → TrackBody
  | logic : LogicData → TrackBody
  | arp : ArpData → TrackBody
  deriving DecidableEq, Repr

namespace TrackBody

def WF : TrackBody → Prop
  | note seqs => seqs.length < 256 ∧ ∀ s ∈ seqs, s.WF
  | curve seqs => seqs.length < 256 ∧ ∀ s ∈ seqs, s.WF
  | midiCv d => d.WF
  | stochastic d => d.WF
  | logic d => d.WF
  | arp d => d.WF

instance : DecidablePred WF := fun b => by cases b <;> (unfold WF; infer_instance)

/-- Stable variant tag byte (spec §9: "a stable tag byte"). -/
def tag : TrackBody → Nat
  | note _ => 0
  | curve _ => 1
  | midiCv _ => 2
  | stochastic _ => 3
  | logic _ => 4
  | arp _ => 5

/-- Variant tag byte followed by the variant-specific body (spec §4.8). -/
def write : TrackBody → List Nat
  | note seqs => write8 0 ++ write8 seqs.length ++ (seqs.map NoteSeqData.write).flatten
  | curve seqs => write8 1 ++ write8 seqs.length ++ (seqs.map CurveSeqData.write).flatten
  | midiCv d => write8 2 ++ d.write
  | stochastic d => write8 3 ++ d.write
  | logic d => write8 4 ++ d.write
  | arp d => write8 5 ++ d.write

def read (l : List Nat) : Option (TrackBody × List Nat) :=
  match read8 l with
  | none => none
  | some (t, l) =>
    match t with
    | 0 =>
      match read8 l with
      | none => none
      | some (k, l) =>
        match readCount NoteSeqData.read k l with
        | none => none
        | some (seqs, l) => some (note seqs, l)
    | 1 =>
      match read8 l with
      | none => none
      | some (k, l) =>
        match readCount CurveSeqData.read k l with
        | none => none
        | some (seqs, l) => some (curve seqs, l)
    | 2 => (MidiCvData.read l).map (fun p => (midiCv p.1, p.2))
    | 3 => (StochasticData.read l).map (fun p => (stochastic p.1, p.2))
    | 4 => (LogicData.read l).map (fun p => (logic p.1, p.2))
    | 5 => (ArpData.read l).map (fun p => (arp p.1, p.2))
    | _ => none

theorem trackBody_read_write (b : TrackBody) (h : b.WF) (rest : List Nat) :
    read (write b ++ rest) = some (b, rest) := by
  cases b with
  | note seqs =>
    obtain ⟨h1, h2⟩ := h
    unfold read write
    rw [List.append_assoc, List.append_assoc, read8_write8 0 (by omega)]
    dsimp only
    rw [read8_write8 _ h1]
    dsimp only
    rw [readCount_append NoteSeqData.read NoteSeqData.write NoteSeqData.WF
      (fun x hx r => NoteSeqData.noteSeqData_read_write x hx r) seqs h2]
  | curve seqs =>
    obtain ⟨h1, h2⟩ := h
    unfold read write
    rw [List.append_assoc, List.append_assoc, read8_write8 1 (by omega)]
    dsimp only
    rw [read8_write8 _ h1]
    dsimp only
    rw [readCount_append CurveSeqData.read CurveSeqData.write CurveSeqData.WF
      (fun x hx r => CurveSeqData.curveSeqData_read_write x hx r) seqs h2]
  | midiCv d =>
    unfold read write
    rw [List.append_assoc, read8_write8 2 (by omega)]
    dsimp only
    rw [MidiCvData.midiCvData_read_write d h]
    rfl
  | stochastic d =>
    unfold read write
    rw [List.append_assoc, read8_write8 3 (by omega)]
    dsimp only
    rw [StochasticData.stochasticData_read_write d h]
    rfl
  | logic d =>
    unfold read write
    rw [List.append_assoc, read8_write8 4 (by omega)]
    dsimp only
    rw [LogicData.logicData_read_write d h]
    rfl
  | arp d =>
    unfold read write
    rw [List.append_assoc, read8_write8 5 (by omega)]
    dsimp only
    rw [ArpData.arpData_read_write d h]
    rfl

end TrackBody

/-- A track: its name plus the tagged variant body (spec §3). -/
structure Track where
  name : List Nat
  body : TrackBody
  deriving DecidableEq, Repr

namespace Track

def WF (t : Track) : Prop := NameWF t.name ∧ t.body.WF

instance : DecidablePred WF := fun t => by unfold WF; infer_instance

def write (t : Track) : List Nat := writeName t.name ++ t.body.write

def read (l : List Nat) : Option (Track × List Nat) :=
  match readName l with
  | none => none
  | some (n, l) =>
    match TrackBody.read l with
    | none => none
    | some (b, l) => some (⟨n, b⟩, l)

theorem track_read_write (t : Track) (h : t.WF) (rest : List Nat) :
    read (write t ++ rest) = some (t, rest) := by
  obtain ⟨h1, h2⟩ := h
  unfold read write
  rw [List.append_assoc, readName_writeName _ h1]
  dsimp only
  rw [TrackBody.trackBody_read_write t.body h2]

end Track

/-! ## Project (spec §3, §4.8)

Modelled from the spec: `apps/sequencer/model/Project.cpp` is not in the
source tree.  "A single versioned stream writes, in a fixed order: header
(magic, version, reserved), project globals, clock-setup, routing,
MIDI-output map, each user scale, song, play-state, each track (variant tag +
variant-specific body), then a trailer checksum."  The tempo is a 32-bit
float emitted verbatim, held here as its raw little-endian 32-bit image. -/

/-- Stream magic word. -/
def magicWord : Nat := 80 + 256 * 69 + 65536 * 82 + 16777216 * 70

/-- Trailer checksum over the bytes written before it. -/
def checksum (l : List Nat) : Nat := l.sum % 4294967296

structure Project where
  name : List Nat
  tempoBits : Nat
  swing : Nat
  clockSetup : ClockSetup
  routing : List Route
  midiOutputs : List MidiOutputEntry
  userScales : List UserScale
  song : Song
  playState : PlayState
  tracks : List Track
  deriving DecidableEq, Repr

namespace Project

def WF (p : Project) : Prop :=
  NameWF p.name ∧ p.tempoBits < 4294967296 ∧ p.swing < 256 ∧
  p.clockSetup.WF ∧
  p.routing.length < 256 ∧ (∀ r ∈ p.routing, r.WF) ∧
  p.midiOutputs.length < 256 ∧ (∀ m ∈ p.midiOutputs, m.WF) ∧
  p.userScales.length = 4 ∧ (∀ u ∈ p.userScales, u.WF) ∧
  p.song.WF ∧ p.playState.WF ∧
  p.tracks.length = 8 ∧ ∀ t ∈ p.tracks, t.WF

instance : DecidablePred WF := fun p => by unfold WF; infer_instance

/-- Everything before the trailer checksum, in the spec's fixed order. -/
def writeBody (version : Nat) (p : Project) : List Nat :=
  write32 magicWord ++ write32 version ++ write32 0 ++
  writeName p.name ++ write32 p.tempoBits ++ write8 p.swing ++
  p.clockSetup.write ++
  write8 p.routing.length ++ (p.routing.map Route.write).flatten ++
  write8 p.midiOutputs.length ++
  (p.midiOutputs.map MidiOutputEntry.write).flatten ++
  (p.userScales.map UserScale.write).flatten ++
  p.song.write ++ p.playState.write ++
  (p.tracks.map Track.write).flatten

def write (version : Nat) (p : Project) : List Nat :=
  writeBody version p ++ write32 (checksum (writeBody version p))

def readBody (version : Nat) (l : List Nat) : Option (Project × List Nat) :=
  match read32 l with
  | none => none
  | some (m, l) =>
    if m = magicWord then
      match read32 l with
      | none => none
      | some (v, l) =>
        if v = version then
          match read32 l with
          | none => none
          | some (_, l) =>
            match readName l with
            | none => none
            | some (n, l) =>
              match read32 l with
              | none => none
              | some (tempo, l) =>
                match read8 l with
                | none => none
                | some (sw, l) =>
                  match ClockSetup.read l with
                  | none => none
                  | some (cs, l) =>
                    match read8 l with
                    | none => none
                    | some (nr, l) =>
                      match readCount Route.read nr l with
                      | none => none
                      | some (routing, l) =>
                        match read8 l with
                        | none => none
                        | some (nm, l) =>
                          match readCount MidiOutputEntry.read nm l with
                          | none => none
                          | some (mos, l) =>
                            match readCount UserScale.read 4 l with
                            | none => none
                            | some (us, l) =>
                              match Song.read l with
                              | none => none
                              | some (sg, l) =>
                                match PlayState.read l with
                                | none => none
                                | some (ps, l) =>
                                  match readCount Track.read 8 l with
                                  | none => none
                                  | some (ts, l) =>
                                    some (⟨n, tempo, sw, cs, routing, mos,
                                           us, sg, ps, ts⟩, l)
        else none
    else none

/-- Read back a project: parse the body, then verify the trailer checksum
against the bytes consumed. -/
def read (version : Nat) (l : List Nat) : Option (Project × List Nat) :=
  match readBody version l with
  | none => none
  | some (p, rest) =>
    match read32 rest with
    | none => none
    | some (ck, rest') =>
      if ck = checksum (l.take (l.length - rest.length)) then some (p, rest')
      else none

theorem readBody_writeBody (version : Nat) (hv : version < 4294967296)
    (p : Project) (h : p.WF) (rest : List Nat) :
    readBody version (writeBody version p ++ rest) = some (p, rest) := by
  obtain ⟨h1, h2, h3, h4, h5, h6, h7, h8, h9, h10, h11, h12, h13, h14⟩ := h
  unfold readBody writeBody
  simp only [List.append_assoc]
  rw [read32_write32 _ (by unfold magicWord; omega)]
  dsimp only
  rw [if_pos rfl, read32_write32 _ hv]
  dsimp only
  rw [if_pos rfl, read32_write32 _ (by omega)]
  dsimp only
  rw [readName_writeName _ h1]
  dsimp only
  rw [read32_write32 _ h2]
  dsimp only
  rw [read8_write8 _ h3]
  dsimp only
  rw [ClockSetup.clockSetup_read_write _ h4]
  dsimp only
  rw [read8_write8 _ h5]
  dsimp only
  rw [readCount_append Route.read Route.write Route.WF
    (fun x hx r => Route.route_read_write x hx r) p.routing h6]
  dsimp only
  rw [read8_write8 _ h7]
  dsimp only
  rw [readCount_append MidiOutputEntry.read MidiOutputEntry.write
    MidiOutputEntry.WF (fun x hx r => MidiOutputEntry.midiOutputEntry_read_write x hx r)
    p.midiOutputs h8]
  dsimp only
  rw [← h9, readCount_append UserScale.read UserScale.write UserScale.WF
    (fun x hx r => UserScale.userScale_read_write x hx r) p.userScales h10]
  dsimp only
  rw [Song.song_read_write _ h11]
  dsimp only
  rw [PlayState.playState_read_write _ h12]
  dsimp only
  rw [← h13, readCount_append Track.read Track.write Track.WF
    (fun x hx r => Track.track_read_write x hx r) p.tracks h14]

theorem project_read_write (version : Nat) (hv : version < 4294967296)
    (p : Project) (h : p.WF) :
    read version (write version p) = some (p, []) := by
  unfold read write
  rw [readBody_writeBody version hv p h]
  dsimp only
  rw [read32_write32_nil _ (by unfold checksum; omega)]
  dsimp only
  have hlen : (writeBody version p ++ write32 (checksum (writeBody version p))).length
      - (write32 (checksum (writeBody version p))).length
      = (writeBody version p).length := by
    simp
  rw [hlen, List.take_left]
  rw [if_pos rfl]

end Project

/-! ### Concrete data for the serialization witnesses -/

/-- A step with boundary field values (max note raw pattern, min
noteVariationRange raw pattern, max length, max gate probability). -/
def sampleStep : NoteStep :=
  ⟨1, 127, 15, 1, 15, 127, 15, 15, 127, 127, 31, 127, 15, 127⟩

/-- A project exercising all six track variants and boundary field values. -/
def sampleProject : Project where
  name := [67, 111, 109, 112, 108, 101, 120]
  tempoBits := 1124233216
  swing := 58
  clockSetup := ⟨0, 24, 1000, 55⟩
  routing := [⟨3, 1⟩, ⟨7, 2⟩]
  midiOutputs := [⟨0, 1, 9⟩]
  userScales := [⟨[77, 121], 12, [0, 2, 4, 5, 7, 9, 11]⟩, ⟨[], 7, []⟩,
    ⟨[85], 12, [1]⟩, ⟨[], 12, []⟩]
  song := ⟨[83, 111, 110, 103], [⟨[0, 1, 2, 3, 4, 5, 6, 7], 2⟩]⟩
  playState := ⟨0, 100⟩
  tracks :=
    [⟨[75, 105, 99, 107], TrackBody.note [⟨24, 0, 15, [sampleStep, ⟨0, 0, 0, 0,
        0, 0, 0, 0, 0, 0, 0, 0, 0, 0⟩]⟩]⟩,
     ⟨[83, 110, 97, 114, 101], TrackBody.curve [⟨0, 255, [3, 4, 5]⟩]⟩,
     ⟨[72, 105, 72, 97, 116], TrackBody.midiCv ⟨1, 9⟩⟩,
     ⟨[], TrackBody.stochastic ⟨100, 0, 0, 0, [sampleStep]⟩⟩,
     ⟨[], TrackBody.logic ⟨0, 1, [⟨1, 127, 15, 2, 15, 127, 15, 3, 127, 7, 31,
        127, 15, 1, 1, 3, 3⟩]⟩⟩,
     ⟨[], TrackBody.arp ⟨2, 3, 12, 1⟩⟩,
     ⟨[], TrackBody.note []⟩,
     ⟨[], TrackBody.curve []⟩]

/-- **C1.** Serialization round-trip: writing a well-formed project with the
versioned serialized writer and reading the bytes back at the same version
yields the project unchanged (name, tempo, swing, every track's name and
variant body, song, user scales, routing); likewise every well-formed
NoteSequence step round-trips through its packed write/read for all layers. -/
theorem C1_serialization_roundtrip (version : Nat) (p : Project) (s : NoteStep)
    (hv : version < 4294967296) (hp : p.WF) (hs : s.WF) :
    Project.read version (Project.write version p) = some (p, []) ∧
    NoteStep.read (NoteStep.write s) = some (s, []) := by
  constructor
  · exact Project.project_read_write version hv p hp
  · have := NoteStep.noteStep_read_write s hs []
    simpa using this

/-- **C1 witness**: the round-trip at version 27 on a concrete project
covering all six track variants and on a boundary-valued step. -/
theorem C1_serialization_roundtrip_witness :
    Project.read 27 (Project.write 27 sampleProject) = some (sampleProject, []) ∧
    NoteStep.read (NoteStep.write sampleStep) = some (sampleStep, []) :=
  C1_serialization_roundtrip 27 sampleProject sampleStep (by decide)
    (by decide) (by decide)

/-! ## Rhythm primitives (spec §4.2)

Modelled from the spec: `apps/sequencer/engine/generators/Rhythm.cpp` is not
in the source tree.  `euclidean(beats, steps)` returns a pattern of `steps`
bits with `beats` ones distributed as evenly as possible by Bjorklund's
algorithm (bucket/Bresenham form: bit `i` is on iff the running bucket
`i * beats mod steps` is below `beats`); when `beats ≥ steps` all bits are
on, when `beats = 0` all bits are off, for `beats = 1` the single beat is at
position 0 — matching the patterns pinned by `TestRhythm.cpp`
(E(4,16) = x---x---x---x---, E(3,8) = x--x--x-).  `shifted(k)` rotates the
pattern right by `k mod size`.  A pattern is a `List Bool`. -/

namespace Rhythm

def euclidean (beats steps : Nat) : List Bool :=
  (List.range steps).map (fun i => decide ((i * beats) % steps < beats))

/-- `Pattern::shifted(k)`: rotate right by `k mod size`; output bit `i` is
input bit `(i - k) mod size`, realised on `Nat` as
`(i + size - k % size) % size`. -/
def shifted (p : List Bool) (k : Nat) : List Bool :=
  (List.range p.length).map
    (fun i => p.getD ((i + p.length - k % p.length) % p.length) false)

theorem euclidean_length (beats steps : Nat) :
    (euclidean beats steps).length = steps := by
  simp [euclidean]

theorem shifted_length (p : List Bool) (k : Nat) :
    (shifted p k).length = p.length := by
  simp [shifted]

theorem euclidean_getD (beats steps i : Nat) (hi : i < steps) :
    (euclidean beats steps).getD i false
      = decide ((i * beats) % steps < beats) := by
  rw [List.getD_eq_getElem _ _ (by simpa [euclidean_length] using hi)]
  simp [euclidean]

theorem shifted_getD (p : List Bool) (k i : Nat) (hi : i < p.length) :
    (shifted p k).getD i false
      = p.getD ((i + p.length - k % p.length) % p.length) false := by
  rw [List.getD_eq_getElem _ _ (by simpa [shifted_length] using hi)]
  simp [shifted]

/-- Division advances by one exactly when the running remainder wraps. -/
theorem add_div_step (beats steps a : Nat) (hb : 0 < beats)
    (hbs : beats < steps) :
    (a + beats) / steps
      = a / steps + (if (a + beats) % steps < beats then 1 else 0) := by
  have hs : 0 < steps := lt_trans hb hbs
  have hmod : (a + beats) % steps = (a % steps + beats) % steps := by
    rw [Nat.add_mod, Nat.mod_eq_of_lt hbs]
  have hr : a % steps < steps := Nat.mod_lt _ hs
  by_cases hc : a % steps + beats < steps
  · have h1 : (a + beats) % steps = a % steps + beats := by
      rw [hmod, Nat.mod_eq_of_lt hc]
    have h2 : (a + beats) / steps = a / steps := by
      rw [Nat.add_div hs, Nat.div_eq_of_lt hbs, Nat.mod_eq_of_lt hbs]
      simp [Nat.not_le.mpr hc]
    rw [h1, h2, if_neg (by omega)]
    omega
  · have h1 : (a + beats) % steps = a % steps + beats - steps := by
      rw [hmod, Nat.mod_eq_sub_mod (Nat.not_lt.mp hc),
        Nat.mod_eq_of_lt (by omega)]
    have h2 : (a + beats) / steps = a / steps + 1 := by
      rw [Nat.add_div hs, Nat.div_eq_of_lt hbs, Nat.mod_eq_of_lt hbs]
      simp [Nat.not_lt.mp hc]
    rw [h1, h2, if_pos (by omega)]

/-- Running count of on-bits of the Bjorklund pattern. -/
theorem euclid_countP (beats steps : Nat) (hb : 0 < beats)
    (hbs : beats < steps) (m : Nat) :
    (List.range m).countP (fun i => decide ((i * beats) % steps < beats))
      = if m = 0 then 0 else (m - 1) * beats / steps + 1 := by
  induction m with
  | zero => simp
  | succ m ih =>
    rw [List.range_succ, List.countP_append, ih]
    simp only [List.countP_cons, List.countP_nil]
    rcases Nat.eq_zero_or_pos m with hm | hm
    · subst hm
      simp [hb, Nat.div_eq_of_lt hbs]
    · have hstep := add_div_step beats steps ((m - 1) * beats) hb hbs
      have hmb : (m - 1) * beats + beats = m * beats := by
        have hm1 : m - 1 + 1 = m := Nat.succ_pred_eq_of_pos hm
        calc (m - 1) * beats + beats = (m - 1 + 1) * beats := by ring
        _ = m * beats := by rw [hm1]
      rw [hmb] at hstep
      rw [if_neg (by omega : ¬ m = 0), if_neg (by omega : ¬ m + 1 = 0),
        Nat.add_sub_cancel]
      by_cases hcond : (m * beats) % steps < beats
      · rw [if_pos hcond] at hstep
        rw [if_pos (show decide ((m * beats) % steps < beats) = true from
          decide_eq_true hcond)]
        rw [hstep]
      · rw [if_neg hcond] at hstep
        rw [if_neg (show ¬ decide ((m * beats) % steps < beats) = true from
          by simp [hcond])]
        rw [hstep]

/-- For `1 ≤ beats < steps` the pattern has exactly `beats` on-bits. -/
theorem euclid_count_eq (beats steps : Nat) (hb : 0 < beats)
    (hbs : beats < steps) :
    (euclidean beats steps).count true = beats := by
  have hs : 0 < steps := lt_trans hb hbs
  unfold euclidean
  rw [List.count_eq_countP, List.countP_map]
  have hfun : ((fun b => b == true) ∘ fun i => decide ((i * beats) % steps < beats))
      = fun i => decide ((i * beats) % steps < beats) := by
    funext i
    simp
  rw [hfun, euclid_countP beats steps hb hbs steps, if_neg (by omega)]
  have hlo : (beats - 1) * steps ≤ (steps - 1) * beats := by
    rw [Nat.sub_mul, Nat.sub_mul, one_mul, one_mul, mul_comm steps beats]
    exact Nat.sub_le_sub_left (le_of_lt hbs) _
  have hhi : (steps - 1) * beats < (beats - 1 + 1) * steps := by
    rw [Nat.sub_add_cancel hb, Nat.sub_mul, one_mul, mul_comm steps beats]
    exact Nat.sub_lt (Nat.mul_pos hb hs) hb
  rw [Nat.div_eq_of_lt_le hlo hhi]
  omega

theorem euclidean_all_on (beats steps : Nat) (h : steps ≤ beats) :
    euclidean beats steps = List.replicate steps true := by
  conv_rhs => rw [← euclidean_length beats steps]
  apply List.eq_replicate_of_mem
  intro b hb
  unfold euclidean at hb
  obtain ⟨i, hi, rfl⟩ := List.mem_map.mp hb
  have hlt : (i * beats) % steps < steps := by
    apply Nat.mod_lt
    have := List.mem_range.mp hi
    omega
  simp
  omega

theorem euclidean_all_off (steps : Nat) :
    euclidean 0 steps = List.replicate steps false := by
  conv_rhs => rw [← euclidean_length 0 steps]
  apply List.eq_replicate_of_mem
  intro b hb
  unfold euclidean at hb
  obtain ⟨i, _, rfl⟩ := List.mem_map.mp hb
  simp

theorem euclidean_one (steps : Nat) (h : 1 ≤ steps) :
    euclidean 1 steps = true :: List.replicate (steps - 1) false := by
  apply List.ext_getElem
  · simp [euclidean_length]
    omega
  · intro i h1 h2
    rw [euclidean_length] at h1
    have hcell : (euclidean 1 steps)[i] = decide ((i * 1) % steps < 1) := by
      simp [euclidean]
    rw [hcell]
    match i with
    | 0 =>
      simp [Nat.mod_eq_of_lt h]
    | j + 1 =>
      have : (j + 1) % steps = j + 1 := Nat.mod_eq_of_lt (by omega)
      simp only [Nat.mul_one, this, List.getElem_cons_succ]
      rw [List.getElem_replicate]
      simp

/-- **C2.** For every `(beats, steps)` with `1 ≤ steps ≤ 64`:
`euclidean(beats, steps)` has exactly `steps` bits and its popcount is
`min(beats, steps)`; when `beats ≥ steps` every bit is on, when `beats = 0`
every bit is off, and for `beats = 1` the single one-bit is at position 0. -/
theorem C2_euclidean_popcount (beats steps : Nat) (h1 : 1 ≤ steps)
    (h2 : steps ≤ 64) :
    (euclidean beats steps).length = steps ∧
    (euclidean beats steps).count true = min beats steps ∧
    (steps ≤ beats → euclidean beats steps = List.replicate steps true) ∧
    (beats = 0 → euclidean beats steps = List.replicate steps false) ∧
    (beats = 1 → euclidean beats steps = true :: List.replicate (steps - 1) false) := by
  refine ⟨euclidean_length beats steps, ?_, fun h => euclidean_all_on beats steps h,
    fun h => by rw [h]; exact euclidean_all_off steps,
    fun h => by rw [h]; exact euclidean_one steps h1⟩
  rcases Nat.lt_or_ge beats steps with hlt | hge
  · rcases Nat.eq_zero_or_pos beats with hz | hpos
    · subst hz
      rw [euclidean_all_off steps]
      simp [List.count_replicate]
    · rw [euclid_count_eq beats steps hpos hlt]
      omega
  · rw [euclidean_all_on beats steps hge]
    simp
    omega

/-- **C2 witness**: the popcount and boundary facts at `E(5, 13)`. -/
theorem C2_euclidean_popcount_witness :
    (euclidean 5 13).length = 13 ∧
    (euclidean 5 13).count true = min 5 13 ∧
    (13 ≤ 5 → euclidean 5 13 = List.replicate 13 true) ∧
    (5 = 0 → euclidean 5 13 = List.replicate 13 false) ∧
    (5 = 1 → euclidean 5 13 = true :: List.replicate 12 false) :=
  C2_euclidean_popcount 5 13 (by decide) (by decide)

theorem shifted_zero (p : List Bool) : shifted p 0 = p := by
  apply List.ext_getElem
  · simp [shifted_length]
  · intro i h1 h2
    simp only [shifted, List.getElem_map, List.getElem_range]
    rw [Nat.zero_mod, Nat.sub_zero, Nat.add_mod_right, Nat.mod_eq_of_lt h2]
    exact List.getD_eq_getElem _ _ h2

theorem shifted_size (p : List Bool) : shifted p p.length = p := by
  apply List.ext_getElem
  · simp [shifted_length]
  · intro i h1 h2
    simp only [shifted, List.getElem_map, List.getElem_range]
    rw [Nat.mod_self, Nat.sub_zero, Nat.add_mod_right, Nat.mod_eq_of_lt h2]
    exact List.getD_eq_getElem _ _ h2

/-- The `Nat` index formula of `shifted` computes the mathematical
`(i - k) mod n`. -/
theorem emod_index (n k i : Nat) (hn : 0 < n) (hi : i < n) :
    (((i : Int) - (k : Int)) % (n : Int)).toNat = (i + n - k % n) % n := by
  have hr : k % n < n := Nat.mod_lt _ hn
  have hk : n * (k / n) + k % n = k := Nat.div_add_mod k n
  have hk' : (n : Int) * ((k / n : Nat) : Int) + ((k % n : Nat) : Int)
      = (k : Int) := by
    exact_mod_cast congrArg (Nat.cast : Nat → Int) hk
  have hcast : ((i : Int) - k)
      = ((i + n - k % n : Nat) : Int) + (n : Int) * (-((k / n : Nat) : Int) - 1) := by
    have hc : ((i + n - k % n : Nat) : Int) = (i : Int) + n - ((k % n : Nat) : Int) := by
      have hle : k % n ≤ i + n := by omega
      push_cast [hle]
      ring
    rw [hc]
    linarith [hk']
  rw [hcast, Int.add_mul_emod_self_left,
    show ((i + n - k % n : Nat) : Int) % (n : Int)
      = (((i + n - k % n) % n : Nat) : Int) from (Int.natCast_mod _ _).symm]
  exact Int.toNat_natCast _

/-- Modelled from the spec: `EuclideanGenerator.cpp` is not in the source
tree.  The generator produces the Euclidean pattern for its (clamped)
`steps`/`beats` parameters rotated right by `offset`
(spec §4.3; `TestEuclidean.cpp` "pattern rotated by offset"). -/
def euclideanGeneratorPattern (steps beats offset : Nat) : List Bool :=
  shifted (euclidean beats steps) offset

/-- **C3.** `shifted(k)` rotates right by `k mod n`: output bit `i` is input
bit `(i - k) mod n`; `shifted(0)` and `shifted(n)` are the identity, so
`euclidean(b, n).shifted(n) = euclidean(b, n)`; and the EuclideanGenerator's
offset realises the same rotation: with offset 2 on 8 steps, bit `i` of the
generated pattern is bit `(i - 2) mod 8` of the unrotated pattern. -/
theorem C3_shifted_rotation (p : List Bool) (k beats n : Nat) :
    (∀ i, i < p.length →
      (shifted p k).getD i false
        = p.getD (((i : Int) - (k : Int)) % (p.length : Int)).toNat false) ∧
    shifted p 0 = p ∧
    shifted p p.length = p ∧
    shifted (euclidean beats n) n = euclidean beats n ∧
    (∀ i, i < 8 →
      (euclideanGeneratorPattern 8 beats 2).getD i false
        = (euclidean beats 8).getD (((i : Int) - 2) % 8).toNat false) := by
  refine ⟨?_, shifted_zero p, shifted_size p, ?_, ?_⟩
  · intro i hi
    rw [shifted_getD p k i hi, emod_index p.length k i (by omega) hi]
  · have h := shifted_size (euclidean beats n)
    rw [euclidean_length] at h
    exact h
  · intro i hi
    unfold euclideanGeneratorPattern
    rw [shifted_getD _ 2 i (by rw [euclidean_length]; exact hi)]
    rw [euclidean_length]
    have h := emod_index 8 2 i (by omega) hi
    norm_num at h ⊢
    rw [h]

/-- **C3 witness**: rotation characterisation at `E(4,16)` shifted by 4 and
at the generator with offset 2 on 8 steps. -/
theorem C3_shifted_rotation_witness :
    (shifted (euclidean 4 16) 4).getD 6 false
      = (euclidean 4 16).getD
          (((6 : Int) - (4 : Int)) % ((euclidean 4 16).length : Int)).toNat false ∧
    (euclideanGeneratorPattern 8 5 2).getD 3 false
      = (euclidean 5 8).getD (((3 : Int) - 2) % 8).toNat false := by
  have h := C3_shifted_rotation (euclidean 4 16) 4 5 8
  exact ⟨h.1 6 (by decide), h.2.2.2.2 3 (by decide)⟩

end Rhythm

/-! ## Setter clamping (spec §3 invariants, §8)

Modelled from the spec: `NoteSequence.cpp` and `Project.cpp` are not in the
source tree.  "Every numeric field is clamped to its bit-field range on
write"; the semantic view of a step holds each field as an `Int` and each
setter stores `clamp(v, min, max)` where `[min, max]` is the field's
bit-field range (unsigned width w: `[0, 2^w - 1]`; signed width w:
`[-2^(w-1), 2^(w-1) - 1]`).  Project tempo clamps to `[1, 1000]`, swing to
`[50, 75]` (spec §3; `TestProject.cpp` "Tempo clamping"/"Swing clamping"). -/

structure StepState where
  gate : Bool
  gateProbability : Int
  gateOffset : Int
  slide : Bool
  retrigger : Int
  retriggerProbability : Int
  length : Int
  lengthVariationRange : Int
  lengthVariationProbability : Int
  note : Int
  noteVariationRange : Int
  noteVariationProbability : Int
  condition : Int
  velocity : Int
  deriving DecidableEq, Repr

namespace StepState

def setGateProbability (s : StepState) (v : Int) : StepState :=
  { s with gateProbability := clampI v 0 127 }

def setGateOffset (s : StepState) (v : Int) : StepState :=
  { s with gateOffset := clampI v (-8) 7 }

def setRetrigger (s : StepState) (v : Int) : StepState :=
  { s with retrigger := clampI v 0 15 }

def setRetriggerProbability (s : StepState) (v : Int) : StepState :=
  { s with retriggerProbability := clampI v 0 127 }

def setLength (s : StepState) (v : Int) : StepState :=
  { s with length := clampI v 0 15 }

def setLengthVariationRange (s : StepState) (v : Int) : StepState :=
  { s with lengthVariationRange := clampI v (-8) 7 }

def setLengthVariationProbability (s : StepState) (v : Int) : StepState :=
  { s with lengthVariationProbability := clampI v 0 127 }

def setNote (s : StepState) (v : Int) : StepState :=
  { s with note := clampI v (-64) 63 }

def setNoteVariationRange (s : StepState) (v : Int) : StepState :=
  { s with noteVariationRange := clampI v (-16) 15 }

def setNoteVariationProbability (s : StepState) (v : Int) : StepState :=
  { s with noteVariationProbability := clampI v 0 127 }

def setCondition (s : StepState) (v : Int) : StepState :=
  { s with condition := clampI v 0 15 }

def setVelocity (s : StepState) (v : Int) : StepState :=
  { s with velocity := clampI v 0 127 }

end StepState

/-- `clamp` on rationals (project tempo is fractional). -/
def clampQ (v lo hi : ℚ) : ℚ := if v < lo then lo else if v > hi then hi else v

/-- Project globals touched by the tempo/swing setters. -/
structure ProjectGlobals where
  tempo : ℚ
  swing : Int
  deriving DecidableEq, Repr

namespace ProjectGlobals

/-- Defaults pinned by `TestProject.cpp`: tempo 120, swing 50. -/
def default : ProjectGlobals := ⟨120, 50⟩

def setTempo (p : ProjectGlobals) (v : ℚ) : ProjectGlobals :=
  { p with tempo := clampQ v 1 1000 }

def setSwing (p : ProjectGlobals) (v : Int) : ProjectGlobals :=
  { p with swing := clampI v 50 75 }

end ProjectGlobals

/-- One tempo or swing setter call. -/
inductive GlobalOp where
  | tempo (v : ℚ)
  | swing (v : Int)

def applyGlobalOp (p : ProjectGlobals) : GlobalOp → ProjectGlobals
  | GlobalOp.tempo v => p.setTempo v
  | GlobalOp.swing v => p.setSwing v

def applyGlobalOps (p : ProjectGlobals) (ops : List GlobalOp) : ProjectGlobals :=
  ops.foldl applyGlobalOp p

/-- Range invariant of the project globals. -/
def GlobalsInRange (p : ProjectGlobals) : Prop :=
  1 ≤ p.tempo ∧ p.tempo ≤ 1000 ∧ 50 ≤ p.swing ∧ p.swing ≤ 75

theorem globals_inRange_step (p : ProjectGlobals) (op : GlobalOp)
    (h : GlobalsInRange p) : GlobalsInRange (applyGlobalOp p op) := by
  obtain ⟨h1, h2, h3, h4⟩ := h
  cases op with
  | tempo v =>
    unfold applyGlobalOp ProjectGlobals.setTempo GlobalsInRange clampQ
    dsimp only
    split_ifs <;> exact ⟨by linarith, by linarith, h3, h4⟩
  | swing v =>
    unfold applyGlobalOp ProjectGlobals.setSwing GlobalsInRange clampI
    dsimp only
    split_ifs <;> exact ⟨h1, h2, by omega, by omega⟩

theorem globals_inRange_ops (ops : List GlobalOp) (p : ProjectGlobals)
    (h : GlobalsInRange p) : GlobalsInRange (applyGlobalOps p ops) := by
  induction ops generalizing p with
  | nil => exact h
  | cons op rest ih =>
    exact ih (applyGlobalOp p op) (globals_inRange_step p op h)

/-- **C4.** After `set(v)` every step field holds `clamp(v, min, max)` of its
bit-field range (and clamped values lie in `[min, max]`); `setTempo` stores
`clamp(v, 1, 1000)` and `setSwing` stores `clamp(v, 50, 75)`, so after any
sequence of setter calls from the default project the tempo lies in
`[1, 1000]` and the swing in `[50, 75]`. -/
theorem C4_setter_clamping (s : StepState) (v : Int) (w : ℚ) (u : Int)
    (g : ProjectGlobals) (ops : List GlobalOp) :
    (s.setGateProbability v).gateProbability = clampI v 0 127 ∧
    (s.setGateOffset v).gateOffset = clampI v (-8) 7 ∧
    (s.setRetrigger v).retrigger = clampI v 0 15 ∧
    (s.setRetriggerProbability v).retriggerProbability = clampI v 0 127 ∧
    (s.setLength v).length = clampI v 0 15 ∧
    (s.setLengthVariationRange v).lengthVariationRange = clampI v (-8) 7 ∧
    (s.setLengthVariationProbability v).lengthVariationProbability = clampI v 0 127 ∧
    (s.setNote v).note = clampI v (-64) 63 ∧
    (s.setNoteVariationRange v).noteVariationRange = clampI v (-16) 15 ∧
    (s.setNoteVariationProbability v).noteVariationProbability = clampI v 0 127 ∧
    (s.setCondition v).condition = clampI v 0 15 ∧
    (s.setVelocity v).velocity = clampI v 0 127 ∧
    (∀ lo hi : Int, lo ≤ hi → lo ≤ clampI v lo hi ∧ clampI v lo hi ≤ hi) ∧
    (g.setTempo w).tempo = clampQ w 1 1000 ∧
    (g.setSwing u).swing = clampI u 50 75 ∧
    1 ≤ (applyGlobalOps ProjectGlobals.default ops).tempo ∧
    (applyGlobalOps ProjectGlobals.default ops).tempo ≤ 1000 ∧
    50 ≤ (applyGlobalOps ProjectGlobals.default ops).swing ∧
    (applyGlobalOps ProjectGlobals.default ops).swing ≤ 75 := by
  have hinv := globals_inRange_ops ops ProjectGlobals.default
    ⟨by norm_num [ProjectGlobals.default], by norm_num [ProjectGlobals.default],
     by norm_num [ProjectGlobals.default], by norm_num [ProjectGlobals.default]⟩
  obtain ⟨k1, k2, k3, k4⟩ := hinv
  refine ⟨rfl, rfl, rfl, rfl, rfl, rfl, rfl, rfl, rfl, rfl, rfl, rfl,
    ?_, rfl, rfl, k1, k2, k3, k4⟩
  intro lo hi hle
  unfold clampI
  split_ifs <;> omega

/-- **C4 witness**: clamping at out-of-range values (gate probability 200,
tempo 1500, swing 40) and a concrete setter sequence. -/
theorem C4_setter_clamping_witness :
    ((⟨false, 0, 0, false, 0, 0, 0, 0, 0, 0, 0, 0, 0, 0⟩ : StepState).setGateProbability
        200).gateProbability = clampI 200 0 127 ∧
    ((⟨false, 0, 0, false, 0, 0, 0, 0, 0, 0, 0, 0, 0, 0⟩ : StepState).setGateOffset
        200).gateOffset = clampI 200 (-8) 7 ∧
    ((ProjectGlobals.default.setTempo 1500).tempo = clampQ 1500 1 1000) ∧
    1 ≤ (applyGlobalOps ProjectGlobals.default
      [GlobalOp.tempo 1500, GlobalOp.swing 40]).tempo ∧
    50 ≤ (applyGlobalOps ProjectGlobals.default
      [GlobalOp.tempo 1500, GlobalOp.swing 40]).swing := by
  have h := C4_setter_clamping ⟨false, 0, 0, false, 0, 0, 0, 0, 0, 0, 0, 0, 0, 0⟩
    200 1500 40 ProjectGlobals.default [GlobalOp.tempo 1500, GlobalOp.swing 40]
  obtain ⟨w1, w2, -, -, -, -, -, -, -, -, -, -, -, w14, -, w16, -, w18, -⟩ := h
  exact ⟨w1, w2, w14, w16, w18⟩

/-! ## Clock role arbitration (spec §4.4)

Modelled from the spec: `apps/sequencer/engine/Clock.cpp` is not in the
source tree.  States are `Idle` and `Running` with an active role
(Master/Slave); the mode selector is Master | Slave | Auto.  "Mode
switching: `setMode` in a running state stops the clock first.  While
running as Master, slave Start/Continue are ignored; while running as
Slave, master Start is ignored."  Matches the behaviour pinned by
`TestClock.cpp` ("Mode switching" cases). -/

inductive ClockMode where
  | auto | master | slave
  deriving DecidableEq, Repr

inductive ClockRun where
  | idle | running
  deriving DecidableEq, Repr

structure Clock where
  mode : ClockMode
  run : ClockRun
  activeMode : ClockMode
  tick : Nat
  slaveEnabled : List Bool
  deriving DecidableEq, Repr

namespace Clock

/-- Cold state: mode Auto, idle, tick 0 (`TestClock.cpp` "Default state"). -/
def init : Clock := ⟨ClockMode.auto, ClockRun.idle, ClockMode.auto, 0, [false, false]⟩

/-- `Clock::setMode`: a running clock is stopped first. -/
def setMode (c : Clock) (m : ClockMode) : Clock :=
  { c with mode := m, run := ClockRun.idle }

/-- `Clock::slaveConfigure`: record the enabled flag of slave `i`. -/
def slaveConfigure (c : Clock) (i : Nat) (enabled : Bool) : Clock :=
  { c with slaveEnabled := c.slaveEnabled.set i enabled }

/-- `Clock::masterStart`: ignored in Slave mode and while running as Slave;
otherwise starts as Master and resets the tick counter. -/
def masterStart (c : Clock) : Clock :=
  if c.mode = ClockMode.slave then c
  else if c.run = ClockRun.running ∧ c.activeMode = ClockMode.slave then c
  else { c with run := ClockRun.running, activeMode := ClockMode.master, tick := 0 }

/-- `Clock::slaveStart(i)`: ignored in Master mode, for a disabled slave and
while running as Master; otherwise starts as Slave. -/
def slaveStart (c : Clock) (i : Nat) : Clock :=
  if c.mode = ClockMode.master then c
  else if c.slaveEnabled.getD i false = false then c
  else if c.run = ClockRun.running ∧ c.activeMode = ClockMode.master then c
  else { c with run := ClockRun.running, activeMode := ClockMode.slave, tick := 0 }

def masterStop (c : Clock) : Clock := { c with run := ClockRun.idle }

def isIdle (c : Clock) : Bool := c.run = ClockRun.idle

def isRunning (c : Clock) : Bool := c.run = ClockRun.running

end Clock

/-- **C5.** `setMode` while running stops the clock (the clock is idle
immediately after `setMode`); while the active mode is Master, `slaveStart`
leaves the clock unchanged (still running as Master); while the active mode
is Slave, `masterStart` leaves the clock unchanged (still running as
Slave). -/
theorem C5_clock_arbitration (c : Clock) (m : ClockMode) (i : Nat) :
    (c.setMode m).isIdle = true ∧
    (c.run = ClockRun.running → c.activeMode = ClockMode.master →
      c.slaveStart i = c) ∧
    (c.run = ClockRun.running → c.activeMode = ClockMode.slave →
      c.masterStart = c) := by
  refine ⟨by simp [Clock.setMode, Clock.isIdle], ?_, ?_⟩
  · intro hrun hact
    unfold Clock.slaveStart
    by_cases h1 : c.mode = ClockMode.master
    · rw [if_pos h1]
    · rw [if_neg h1]
      rcases Bool.eq_false_or_eq_true (c.slaveEnabled.getD i false) with h2 | h2
      · rw [if_neg (show ¬ c.slaveEnabled.getD i false = false by
          rw [h2]; decide), if_pos ⟨hrun, hact⟩]
      · rw [if_pos h2]
  · intro hrun hact
    unfold Clock.masterStart
    by_cases h1 : c.mode = ClockMode.slave
    · rw [if_pos h1]
    · rw [if_neg h1, if_pos ⟨hrun, hact⟩]

/-- **C5 witness**: a clock running as Master ignores `slaveStart 0`, one
running as Slave ignores `masterStart`, and `setMode` leaves it idle. -/
theorem C5_clock_arbitration_witness :
    ((Clock.init.slaveConfigure 0 true).masterStart.setMode
        ClockMode.slave).isIdle = true ∧
    ((⟨ClockMode.auto, ClockRun.running, ClockMode.master, 5, [true, false]⟩ :
        Clock).slaveStart 0
      = ⟨ClockMode.auto, ClockRun.running, ClockMode.master, 5, [true, false]⟩) ∧
    ((⟨ClockMode.auto, ClockRun.running, ClockMode.slave, 5, [true, false]⟩ :
        Clock).masterStart
      = ⟨ClockMode.auto, ClockRun.running, ClockMode.slave, 5, [true, false]⟩) := by
  have h1 := C5_clock_arbitration ((Clock.init.slaveConfigure 0 true).masterStart)
    ClockMode.slave 0
  have h2 := C5_clock_arbitration
    (⟨ClockMode.auto, ClockRun.running, ClockMode.master, 5, [true, false]⟩ : Clock)
    ClockMode.slave 0
  have h3 := C5_clock_arbitration
    (⟨ClockMode.auto, ClockRun.running, ClockMode.slave, 5, [true, false]⟩ : Clock)
    ClockMode.slave 0
  exact ⟨h1.1, h2.2.1 (by decide) (by decide), h3.2.2 (by decide) (by decide)⟩

/-! ## MIDI parser (spec §4.1)

Modelled from the spec: `core/midi/MidiParser.h` is not in the source tree.
The streaming parser accepts one byte at a time and returns whether a
complete message is ready.  Rules (spec §4.1): a status byte latches the
running status and resets the data cursor; a 1-byte real-time message
(0xF8..0xFF) is emitted immediately without disturbing running status; a
system common message (0xF1..0xF7) cancels running status; a data byte with
no active status is ignored; SysEx is consumed but not assembled.
`status = 0` encodes "no running status"; message length is derived from
the status byte. -/

/-- Length of a channel-voice message derived from its status byte
(0x80..0xEF): note/poly/CC and pitch-bend are 3 bytes, program change and
channel pressure are 2 bytes. -/
def channelMessageLength (s : Nat) : Nat :=
  if s < 192 then 3 else if s < 224 then 2 else 3

/-- Length of a system common message derived from its status byte
(0xF1..0xF7): TimeCode and SongSelect are 2 bytes, SongPosition is 3,
the rest are 1. -/
def systemMessageLength (s : Nat) : Nat :=
  if s = 241 then 2 else if s = 242 then 3 else if s = 243 then 2 else 1

structure MidiParser where
  status : Nat
  index : Nat
  data0 : Nat
  inSysEx : Bool
  deriving DecidableEq, Repr

namespace MidiParser

/-- Fresh parser: no running status. -/
def init : MidiParser := ⟨0, 0, 0, false⟩

/-- `MidiParser::feed`: consume one byte, returning the updated parser and
whether a complete message is ready. -/
def feed (p : MidiParser) (b : Nat) : MidiParser × Bool :=
  if 248 ≤ b then (p, true)
  else if b = 240 then ({ p with status := 0, index := 0, inSysEx := true }, false)
  else if b = 247 then ({ p with status := 0, index := 0, inSysEx := false }, false)
  else if 128 ≤ b then
    if b < 240 then ({ p with status := b, index := 0, inSysEx := false }, false)
    else if systemMessageLength b = 1 then
      ({ p with status := 0, index := 0, inSysEx := false }, true)
    else ({ p with status := b, index := 0, inSysEx := false }, false)
  else
    if p.inSysEx then (p, false)
    else if p.status = 0 then (p, false)
    else
      if p.index + 2 = (if p.status < 240 then channelMessageLength p.status
          else systemMessageLength p.status) then
        if p.status < 240 then ({ p with index := 0 }, true)
        else ({ p with status := 0, index := 0 }, true)
      else ({ p with index := p.index + 1, data0 := b }, false)

/-- Feed a byte list, collecting the per-byte completion flags. -/
def feedList (p : MidiParser) : List Nat → MidiParser × List Bool
  | [] => (p, [])
  | b :: bs =>
    let pr := feed p b
    let prs := feedList pr.1 bs
    (prs.1, pr.2 :: prs.2)

theorem feed_data_no_status (p : MidiParser) (b : Nat) (hb : b < 128)
    (hst : p.status = 0) (hsx : p.inSysEx = false) : p.feed b = (p, false) := by
  unfold feed
  rw [if_neg (by omega), if_neg (by omega), if_neg (by omega),
    if_neg (by omega), if_neg (by rw [hsx]; decide), if_pos hst]

theorem feedList_data_no_status (p : MidiParser) (ds : List Nat)
    (hst : p.status = 0) (hsx : p.inSysEx = false) (hds : ∀ d ∈ ds, d < 128) :
    p.feedList ds = (p, List.replicate ds.length false) := by
  induction ds with
  | nil => rfl
  | cons d rest ih =>
    unfold feedList
    rw [feed_data_no_status p d (hds d (List.mem_cons_self d rest)) hst hsx]
    dsimp only
    rw [ih (fun x hx => hds x (List.mem_cons_of_mem d hx))]
    rfl

/-- A data byte while a status is latched (not in SysEx). -/
theorem feed_data_byte (p : MidiParser) (b : Nat) (hb : b < 128)
    (hsx : p.inSysEx = false) (hst : ¬ p.status = 0) :
    p.feed b =
      (if p.index + 2 = (if p.status < 240 then channelMessageLength p.status
          else systemMessageLength p.status) then
        (if p.status < 240 then ({ p with index := 0 }, true)
         else ({ p with status := 0, index := 0 }, true))
      else ({ p with index := p.index + 1, data0 := b }, false)) := by
  unfold feed
  rw [if_neg (by omega), if_neg (by omega), if_neg (by omega),
    if_neg (by omega), if_neg (by rw [hsx]; decide), if_neg hst]

theorem system_common_cancels (p : MidiParser) (sc : Nat) (ds : List Nat)
    (h1 : 241 ≤ sc) (h2 : sc ≤ 247)
    (hlen : ds.length + 1 = systemMessageLength sc) (hds : ∀ d ∈ ds, d < 128) :
    (p.feedList (sc :: ds)).1.status = 0 ∧
    (p.feedList (sc :: ds)).1.inSysEx = false := by
  interval_cases sc
  · -- 0xF1: two-byte message
    match ds, hlen with
    | [d], _ =>
      have hd : d < 128 := hds d (List.mem_cons_self d [])
      have hfirst : p.feed 241 =
          ({ p with status := 241, index := 0, inSysEx := false }, false) := by
        simp [feed, systemMessageLength]
      simp only [feedList, hfirst]
      rw [feed_data_byte _ d hd rfl (by norm_num)]
      simp [systemMessageLength]
  · -- 0xF2: three-byte message
    match ds, hlen with
    | [d1, d2], _ =>
      have hd1 : d1 < 128 := hds d1 (by simp)
      have hd2 : d2 < 128 := hds d2 (by simp)
      have hfirst : p.feed 242 =
          ({ p with status := 242, index := 0, inSysEx := false }, false) := by
        simp [feed, systemMessageLength]
      simp only [feedList, hfirst]
      rw [feed_data_byte _ d1 hd1 rfl (by norm_num)]
      simp only [systemMessageLength]
      norm_num
      rw [feed_data_byte _ d2 hd2 rfl (by norm_num)]
      simp [systemMessageLength]
  · -- 0xF3: two-byte message
    match ds, hlen with
    | [d], _ =>
      have hd : d < 128 := hds d (List.mem_cons_self d [])
      have hfirst : p.feed 243 =
          ({ p with status := 243, index := 0, inSysEx := false }, false) := by
        simp [feed, systemMessageLength]
      simp only [feedList, hfirst]
      rw [feed_data_byte _ d hd rfl (by norm_num)]
      simp [systemMessageLength]
  · -- 0xF4: one-byte
    match ds, hlen with
    | [], _ => simp [feedList, feed, systemMessageLength]
  · -- 0xF5: one-byte
    match ds, hlen with
    | [], _ => simp [feedList, feed, systemMessageLength]
  · -- 0xF6: tune request, one-byte
    match ds, hlen with
    | [], _ => simp [feedList, feed, systemMessageLength]
  · -- 0xF7: SysEx end
    match ds, hlen with
    | [], _ => simp [feedList, feed, systemMessageLength]

end MidiParser

/-- **C6.** A data byte (< 0x80) fed with no latched running status returns
false and completes no message (and a whole stream of such data bytes
completes none); after a system common message (0xF1..0xF7) runs to
completion the running status is cancelled, so subsequent data bytes
complete no message until a new status byte arrives. -/
theorem C6_midi_running_status (p : MidiParser) (b sc : Nat) (ds es : List Nat) :
    (b < 128 → p.status = 0 → p.inSysEx = false → p.feed b = (p, false)) ∧
    (p.status = 0 → p.inSysEx = false → (∀ d ∈ ds, d < 128) →
      p.feedList ds = (p, List.replicate ds.length false)) ∧
    (241 ≤ sc → sc ≤ 247 →
      ds.length + 1 = systemMessageLength sc → (∀ d ∈ ds, d < 128) →
      (∀ e ∈ es, e < 128) →
      (p.feedList (sc :: ds)).1.status = 0 ∧
      ((p.feedList (sc :: ds)).1.feedList es).2
        = List.replicate es.length false) := by
  refine ⟨fun hb hst hsx => MidiParser.feed_data_no_status p b hb hst hsx,
    fun hst hsx hds => MidiParser.feedList_data_no_status p ds hst hsx hds,
    fun h1 h2 hlen hds hes => ?_⟩
  obtain ⟨hst, hsx⟩ := MidiParser.system_common_cancels p sc ds h1 h2 hlen hds
  refine ⟨hst, ?_⟩
  rw [MidiParser.feedList_data_no_status _ es hst hsx hes]

/-- **C6 witness**: running status 0x90 latched, then TuneRequest (0xF6)
cancels it; the following data bytes 0x40 0x50 complete no message
(`TestMidiParser.cpp` "System message cancels running status",
"Data bytes ignored when no running status"). -/
theorem C6_midi_running_status_witness :
    MidiParser.init.feed 64 = (MidiParser.init, false) ∧
    ((((MidiParser.init.feedList [144, 60, 100]).1.feedList
        [246]).1).feedList [64, 80]).2 = List.replicate 2 false := by
  have h1 := C6_midi_running_status MidiParser.init 64 246 [] [64, 80]
  have h2 := C6_midi_running_status ((MidiParser.init.feedList [144, 60, 100]).1)
    64 246 [] [64, 80]
  exact ⟨h1.1 (by decide) (by decide) (by decide),
    (h2.2.2 (by decide) (by decide) (by decide) (by decide)
      (by decide)).2⟩

/-! ## Logic operator claims
(`mebitek_snippets/logic_track/LogicSequence_operators.h`) -/

/-- A Logic track's gate output over one bar: the per-step operator applied
point-wise to the input tracks' gate patterns (spec §4.5 "reads the most
recent gate ... from its input tracks A and B and applies the per-step
gateLogic operator"). -/
def logicTrackGateOutput (s : LogicStep) (gatesA gatesB : List Bool) : List Bool :=
  List.zipWith (fun a b => s.evaluateGateLogic a b) gatesA gatesB

/-- **C7.** `evaluateGateLogic` returns A for PASS (0), not A for INVERT
(1), A and B for AND (2), A or B for OR (3), A xor B for XOR (4),
not (A and B) for NAND (5), not (A or B) for NOR (6); consequently a Logic
track with op = AND on gate patterns x-x-x-x-x-x-x-x- and xx--xx--xx--xx--
outputs the bit-wise AND x---x---x---x---. -/
theorem C7_gate_logic (s : LogicStep) (a b : Bool) :
    (s.gateLogic = 0 → s.evaluateGateLogic a b = a) ∧
    (s.gateLogic = 1 → s.evaluateGateLogic a b = !a) ∧
    (s.gateLogic = 2 → s.evaluateGateLogic a b = (a && b)) ∧
    (s.gateLogic = 3 → s.evaluateGateLogic a b = (a || b)) ∧
    (s.gateLogic = 4 → s.evaluateGateLogic a b = (a != b)) ∧
    (s.gateLogic = 5 → s.evaluateGateLogic a b = !(a && b)) ∧
    (s.gateLogic = 6 → s.evaluateGateLogic a b = !(a || b)) ∧
    (s.gateLogic = 2 →
      logicTrackGateOutput s
        [true, false, true, false, true, false, true, false,
         true, false, true, false, true, false, true, false]
        [true, true, false, false, true, true, false, false,
         true, true, false, false, true, true, false, false]
      = [true, false, false, false, true, false, false, false,
         true, false, false, false, true, false, false, false]) := by
  refine ⟨?_, ?_, ?_, ?_, ?_, ?_, ?_, ?_⟩ <;> intro h <;>
    simp [LogicStep.evaluateGateLogic, logicTrackGateOutput, h]

/-- **C7 witness**: the truth table at a concrete AND step and the concrete
cinquillo patterns. -/
theorem C7_gate_logic_witness :
    ((⟨0, 0, 0, 2, 0, 0, 0, 0, 0, 0, 0, 0, 0, 0, 0, 0, 0⟩ : LogicStep).evaluateGateLogic
        true false = (true && false)) ∧
    logicTrackGateOutput (⟨0, 0, 0, 2, 0, 0, 0, 0, 0, 0, 0, 0, 0, 0, 0, 0, 0⟩ : LogicStep)
        [true, false, true, false, true, false, true, false,
         true, false, true, false, true, false, true, false]
        [true, true, false, false, true, true, false, false,
         true, true, false, false, true, true, false, false]
      = [true, false, false, false, true, false, false, false,
         true, false, false, false, true, false, false, false] := by
  have h := C7_gate_logic
    (⟨0, 0, 0, 2, 0, 0, 0, 0, 0, 0, 0, 0, 0, 0, 0, 0, 0⟩ : LogicStep) true false
  exact ⟨h.2.2.1 rfl, h.2.2.2.2.2.2.2 rfl⟩

/-- **C10.** `evaluateNoteLogic` returns noteA for PASS (0);
clamp(noteA + tA, 0, 127) for TRANSPOSE_A (1); clamp(noteB + tB, 0, 127)
for TRANSPOSE_B (2); the truncating integer average (noteA + noteB) / 2 for
COMBINE (3); noteA if noteA > noteB else 0 for FILTER_HIGH (4); noteA if
noteA < noteB else 0 for FILTER_LOW (5); the step's own note if it lies in
[min(noteA, noteB), max(noteA, noteB)] else 0 for FILTER_RANGE (6); and 0
if noteB > 0 else noteA for MASK (7). -/
theorem C10_note_logic (s : LogicStep) (noteA noteB tA tB : Int) :
    (s.noteLogic = 0 → s.evaluateNoteLogic noteA noteB tA tB = noteA) ∧
    (s.noteLogic = 1 → s.evaluateNoteLogic noteA noteB tA tB
      = clampI (noteA + tA) 0 127) ∧
    (s.noteLogic = 2 → s.evaluateNoteLogic noteA noteB tA tB
      = clampI (noteB + tB) 0 127) ∧
    (s.noteLogic = 3 → s.evaluateNoteLogic noteA noteB tA tB
      = Int.tdiv (noteA + noteB) 2) ∧
    (s.noteLogic = 4 → s.evaluateNoteLogic noteA noteB tA tB
      = (if noteA > noteB then noteA else 0)) ∧
    (s.noteLogic = 5 → s.evaluateNoteLogic noteA noteB tA tB
      = (if noteA < noteB then noteA else 0)) ∧
    (s.noteLogic = 6 → s.evaluateNoteLogic noteA noteB tA tB
      = (if (s.note : Int) ≥ min noteA noteB ∧ (s.note : Int) ≤ max noteA noteB
         then (s.note : Int) else 0)) ∧
    (s.noteLogic = 7 → s.evaluateNoteLogic noteA noteB tA tB
      = (if noteB > 0 then 0 else noteA)) := by
  refine ⟨?_, ?_, ?_, ?_, ?_, ?_, ?_, ?_⟩ <;> intro h <;>
    simp [LogicStep.evaluateNoteLogic, h]

/-- **C10 witness**: COMBINE averages 60 and 67 to 63, FILTER_RANGE passes
the step's own note 64 between 60 and 72, MASK blocks when noteB is
positive. -/
theorem C10_note_logic_witness :
    ((⟨0, 0, 0, 0, 0, 0, 0, 0, 64, 3, 0, 0, 0, 0, 0, 0, 0⟩ : LogicStep).evaluateNoteLogic
        60 67 0 0 = Int.tdiv (60 + 67) 2) ∧
    ((⟨0, 0, 0, 0, 0, 0, 0, 0, 64, 6, 0, 0, 0, 0, 0, 0, 0⟩ : LogicStep).evaluateNoteLogic
        60 72 0 0
      = (if ((64 : Nat) : Int) ≥ min 60 72 ∧ ((64 : Nat) : Int) ≤ max 60 72
         then ((64 : Nat) : Int) else 0)) ∧
    ((⟨0, 0, 0, 0, 0, 0, 0, 0, 64, 7, 0, 0, 0, 0, 0, 0, 0⟩ : LogicStep).evaluateNoteLogic
        60 72 0 0 = (if (72 : Int) > 0 then 0 else 60)) := by
  have h3 := C10_note_logic
    (⟨0, 0, 0, 0, 0, 0, 0, 0, 64, 3, 0, 0, 0, 0, 0, 0, 0⟩ : LogicStep) 60 67 0 0
  have h6 := C10_note_logic
    (⟨0, 0, 0, 0, 0, 0, 0, 0, 64, 6, 0, 0, 0, 0, 0, 0, 0⟩ : LogicStep) 60 72 0 0
  have h7 := C10_note_logic
    (⟨0, 0, 0, 0, 0, 0, 0, 0, 64, 7, 0, 0, 0, 0, 0, 0, 0⟩ : LogicStep) 60 72 0 0
  exact ⟨h3.2.2.2.1 rfl, h6.2.2.2.2.2.2.1 rfl, h7.2.2.2.2.2.2.2 rfl⟩

/-! ## Curve CV-controllable min/max
(`mebitek_snippets/curve_enhancements/CurveTrack_cv_control.h`)

Floats carry no rounding here (only clamping and comparison), so they are
embedded as rationals.  `isRouted` returns false in the source snippet, so
`Routable::get` yields the local value. -/

structure CurveCvState where
  min : ℚ
  max : ℚ
  deriving DecidableEq, Repr

namespace CurveCvState

/-- `CurveTrack_CVControl::setMin`: clamp to [-5, 5]; if the new minimum
exceeds the current maximum, drag the maximum up. -/
def setMin (s : CurveCvState) (v : ℚ) : CurveCvState :=
  let m := clampQ v (-5) 5
  if m > s.max then ⟨m, m⟩ else ⟨m, s.max⟩

/-- `CurveTrack_CVControl::setMax`: clamp to [-5, 5]; if the new maximum
falls below the current minimum, drag the minimum down. -/
def setMax (s : CurveCvState) (v : ℚ) : CurveCvState :=
  let m := clampQ v (-5) 5
  if m < s.min then ⟨m, m⟩ else ⟨s.min, m⟩

end CurveCvState

/-- One setMin or setMax call. -/
inductive CurveOp where
  | setMin (v : ℚ)
  | setMax (v : ℚ)

def applyCurveOp (s : CurveCvState) : CurveOp → CurveCvState
  | CurveOp.setMin v => s.setMin v
  | CurveOp.setMax v => s.setMax v

def applyCurveOps (s : CurveCvState) (ops : List CurveOp) : CurveCvState :=
  ops.foldl applyCurveOp s

theorem setMin_invariant (s : CurveCvState) (v : ℚ) :
    (s.setMin v).min ≤ (s.setMin v).max := by
  unfold CurveCvState.setMin
  dsimp only
  split_ifs with h
  · exact le_refl _
  · exact le_of_not_gt h

theorem setMax_invariant (s : CurveCvState) (v : ℚ) :
    (s.setMax v).min ≤ (s.setMax v).max := by
  unfold CurveCvState.setMax
  dsimp only
  split_ifs with h
  · exact le_refl _
  · exact le_of_not_lt h

theorem curve_invariant_ops (ops : List CurveOp) (s : CurveCvState)
    (h : s.min ≤ s.max) :
    (applyCurveOps s ops).min ≤ (applyCurveOps s ops).max := by
  induction ops generalizing s with
  | nil => exact h
  | cons op rest ih =>
    apply ih
    cases op with
    | setMin v => exact setMin_invariant s v
    | setMax v => exact setMax_invariant s v

/-- **C9.** Each value is first clamped to [-5, 5]; setting min above the
current max drags max up to the new min and setting max below the current
min drags min down to the new max; under every sequence of setMin/setMax
calls from a state with `min ≤ max` the state keeps `min ≤ max`. -/
theorem C9_curve_min_max (s : CurveCvState) (v : ℚ) (ops : List CurveOp)
    (hs : s.min ≤ s.max) :
    (s.setMin v).min = clampQ v (-5) 5 ∧
    (s.setMax v).max = clampQ v (-5) 5 ∧
    (clampQ v (-5) 5 > s.max → (s.setMin v).max = clampQ v (-5) 5) ∧
    (clampQ v (-5) 5 ≤ s.max → (s.setMin v).max = s.max) ∧
    (clampQ v (-5) 5 < s.min → (s.setMax v).min = clampQ v (-5) 5) ∧
    (s.min ≤ clampQ v (-5) 5 → (s.setMax v).min = s.min) ∧
    (applyCurveOps s ops).min ≤ (applyCurveOps s ops).max := by
  refine ⟨?_, ?_, ?_, ?_, ?_, ?_, curve_invariant_ops ops s hs⟩
  · unfold CurveCvState.setMin
    dsimp only
    split_ifs <;> rfl
  · unfold CurveCvState.setMax
    dsimp only
    split_ifs <;> rfl
  · intro h
    unfold CurveCvState.setMin
    dsimp only
    rw [if_pos h]
  · intro h
    unfold CurveCvState.setMin
    dsimp only
    rw [if_neg (not_lt.mpr h)]
  · intro h
    unfold CurveCvState.setMax
    dsimp only
    rw [if_pos h]
  · intro h
    unfold CurveCvState.setMax
    dsimp only
    rw [if_neg (not_lt.mpr h)]

/-- **C9 witness**: from (0, 1), `setMin 3` drags max up to 3; a concrete
call sequence keeps min ≤ max. -/
theorem C9_curve_min_max_witness :
    ((⟨0, 1⟩ : CurveCvState).setMin 3).min = clampQ 3 (-5) 5 ∧
    (clampQ 3 (-5) 5 > (1 : ℚ) → ((⟨0, 1⟩ : CurveCvState).setMin 3).max
      = clampQ 3 (-5) 5) ∧
    (applyCurveOps ⟨0, 1⟩ [CurveOp.setMin 3, CurveOp.setMax (-7)]).min
      ≤ (applyCurveOps ⟨0, 1⟩ [CurveOp.setMin 3, CurveOp.setMax (-7)]).max := by
  have h := C9_curve_min_max ⟨0, 1⟩ 3 [CurveOp.setMin 3, CurveOp.setMax (-7)]
    (by norm_num)
  exact ⟨h.1, fun _ => h.2.2.1 (by norm_num [clampQ]), h.2.2.2.2.2.2⟩

/-! ## Project name length (spec §3, §4.8) -/

/-- Modelled from the spec: `Project.cpp` is not in the source tree.
`Project::setName` copies the argument into the project's fixed-size name
buffer; serialized strings have "fixed maximum length 16" (spec §4.8), and
`TestProject.cpp` pins that the 12-character name "Test Project" and the
15-character name "Complex Project" are stored and returned in full, so the
buffer holds the first 16 characters. -/
def Project.setName (p : Project) (s : List Nat) : Project :=
  { p with name := s.take 16 }

/-- **C8 counterexample.** The claim "after `setName(s)` the stored name
holds at most the first 8 characters of `s`" is false: `setName` with the
12-character name "Test Project" (the very input of
`TestProject.cpp:43-44`, which expects it back unchanged) stores all 12
characters. -/
theorem C8_name_counterexample :
    ¬ ((Project.setName ⟨[], 0, 0, ⟨0, 0, 0, 0⟩, [], [], [], ⟨[], []⟩, ⟨0, 0⟩, []⟩
        [84, 101, 115, 116, 32, 80, 114, 111, 106, 101, 99, 116]).name.length ≤ 8) := by
  decide

/-- **C8 (amended).** A project's name holds at most 16 characters: after
`setName(s)` the stored name is the first 16 characters of `s` (hence never
longer than 16). -/
theorem C8_name_truncation (p : Project) (s : List Nat) :
    (p.setName s).name = s.take 16 ∧ (p.setName s).name.length ≤ 16 := by
  refine ⟨rfl, ?_⟩
  simp [Project.setName]

end Performer
